import Mathlib

/-!
Verification of the peel-js geometric/physics engine (`src/peel.ts`).

The source computes with JavaScript double-precision numbers and the
`Math` trigonometric functions.  We embed the geometry over the real
numbers `ℝ`, the standard exact idealisation: `Math.atan2 y x` is the
principal argument `Complex.arg ⟨x, y⟩`, `Math.sqrt` is `Real.sqrt`,
`Math.cos`/`Math.sin` are `Real.cos`/`Real.sin`.  Because `ℝ` has no
decidable ordering the definitions are `noncomputable`; concrete
evaluations in the theorems below are carried out by `simp`/`norm_num`
instead of `decide`.
-/

namespace Peel

open Classical

/- `PRECISION`-based output rounding (`round`) and the DOM/CSS helpers of
the source are renderer-facing and not modelled; the claims below are about
the geometric engine. -/

/-- A class representing a point or 2D vector (`class Point`). -/
structure Point where
  x : ℝ
  y : ℝ

/-- `Point.DEGREES_IN_RADIANS = 180 / Math.PI`. -/
noncomputable def DEGREES_IN_RADIANS : ℝ := 180 / Real.pi

/-- `Point.degToRad = function(deg) { return deg / Point.DEGREES_IN_RADIANS; }`. -/
noncomputable def Point.degToRad (deg : ℝ) : ℝ := deg / DEGREES_IN_RADIANS

/-- `Point.radToDeg`: `var deg = rad * Point.DEGREES_IN_RADIANS; while (deg < 0) deg += 360; return deg;`.
The loop adds 360 until the value is nonnegative; its closed form adds
`360 * k` for the least natural `k` with `deg + 360 * k ≥ 0`, which for
negative `deg` is `⌈-deg / 360⌉`. -/
noncomputable def Point.radToDeg (rad : ℝ) : ℝ :=
  if rad * DEGREES_IN_RADIANS < 0 then
    rad * DEGREES_IN_RADIANS + 360 * (⌈(-(rad * DEGREES_IN_RADIANS)) / 360⌉ : ℤ)
  else rad * DEGREES_IN_RADIANS

/-- JavaScript `Math.atan2(y, x)`: the principal argument of the complex
number `x + y*i`, in `(-π, π]`.  (`ℝ` has no signed zero, the one place
where `Math.atan2` distinguishes more inputs.) -/
noncomputable def atan2 (y x : ℝ) : ℝ := Complex.arg ⟨x, y⟩

/-- `Point#getLength`: `Math.sqrt(Math.pow(this.x, 2) + Math.pow(this.y, 2))`. -/
noncomputable def Point.getLength (p : Point) : ℝ := Real.sqrt (p.x ^ 2 + p.y ^ 2)

/-- `Point#getAngle`: `Point.radToDeg(Math.atan2(this.y, this.x))`. -/
noncomputable def Point.getAngle (p : Point) : ℝ := Point.radToDeg (atan2 p.y p.x)

/-- `Point.vector(deg, len)`: `new Point(Math.cos(rad) * len, Math.sin(rad) * len)`. -/
noncomputable def Point.vector (deg len : ℝ) : Point :=
  let rad := Point.degToRad deg
  ⟨Real.cos rad * len, Real.sin rad * len⟩

/-- `Point#setAngle(deg)`: `Point.vector(deg, this.getLength())`. -/
noncomputable def Point.setAngle (p : Point) (deg : ℝ) : Point :=
  Point.vector deg p.getLength

/-- `Point#rotate(deg)`: `this.setAngle(this.getAngle() + deg)`. -/
noncomputable def Point.rotate (p : Point) (deg : ℝ) : Point :=
  p.setAngle (p.getAngle + deg)

/-- `Point#add`. -/
def Point.add (p q : Point) : Point := ⟨p.x + q.x, p.y + q.y⟩

/-- `Point#subtract`. -/
def Point.subtract (p q : Point) : Point := ⟨p.x - q.x, p.y - q.y⟩

/-- `Point#scale`. -/
def Point.scale (p : Point) (n : ℝ) : Point := ⟨p.x * n, p.y * n⟩


/-- A class that represents a line segment (`class LineSegment`). -/
structure LineSegment where
  p1 : Point
  p2 : Point

/-- `LineSegment.EPSILON = 1e-6`. -/
noncomputable def LineSegment.EPSILON : ℝ := 1 / 1000000

/-- `LineSegment#getVector`: `p2 - p1` (the source caches it; it is a pure
function of the endpoints, so no cache is needed here). -/
def LineSegment.getVector (seg : LineSegment) : Point :=
  seg.p2.subtract seg.p1

/-- `LineSegment#getPointForTime(t)`: `this.p1.add(this.getVector().scale(t))`. -/
def LineSegment.getPointForTime (seg : LineSegment) (t : ℝ) : Point :=
  seg.p1.add (seg.getVector.scale t)

/-- `LineSegment#getAngle`: `this.getVector().getAngle()`. -/
noncomputable def LineSegment.getAngle (seg : LineSegment) : ℝ :=
  seg.getVector.getAngle

/-- `LineSegment#scale(n)`: pushes both endpoints outward proportionally to
the span.  (The source also computes `var half = 1 + (n / 2)` and never uses
it; that dead local is omitted.) -/
def LineSegment.scale (seg : LineSegment) (n : ℝ) : LineSegment :=
  ⟨seg.p1.add ((seg.p2.subtract seg.p1).scale n),
   seg.p2.add ((seg.p1.subtract seg.p2).scale n)⟩

/-- `LineSegment#getPointDeterminant(p)`: the 2D cross product of
`p2 - p1` with `p - p1`, snapped to exactly 0 when strictly within
`±EPSILON`. -/
noncomputable def LineSegment.getPointDeterminant (seg : LineSegment) (p : Point) : ℝ :=
  let d := (p.x - seg.p1.x) * (seg.p2.y - seg.p1.y) - (p.y - seg.p1.y) * (seg.p2.x - seg.p1.x)
  if -LineSegment.EPSILON < d ∧ d < LineSegment.EPSILON then 0 else d

/-- The inner helper `crossProduct(p1, p2)` of `getIntersectPoint`. -/
def crossProduct (p1 p2 : Point) : ℝ := p1.x * p2.y - p1.y * p2.x

/-- `LineSegment#getIntersectPoint(seg2)`: parametric segment–segment
intersection; `null` (here `none`) when the direction vectors are parallel
(`denominator == 0`) or when either parameter falls outside `[0, 1]`. -/
noncomputable def LineSegment.getIntersectPoint (seg1 seg2 : LineSegment) : Option Point :=
  let r := seg1.p2.subtract seg1.p1
  let s := seg2.p2.subtract seg2.p1
  let uNumerator := crossProduct (seg2.p1.subtract seg1.p1) r
  let denominator := crossProduct r s
  if denominator = 0 then none
  else
    let u := uNumerator / denominator
    let t := crossProduct (seg2.p1.subtract seg1.p1) s / denominator
    if 0 ≤ t ∧ t ≤ 1 ∧ 0 ≤ u ∧ u ≤ 1 then some (seg1.p1.add (r.scale t))
    else none

/-- A class that represents a circle (`class Circle`). -/
structure Circle where
  center : Point
  radius : ℝ

/-- `Circle#boundingRectContainsPoint(p)`. -/
def Circle.boundingRectContainsPoint (c : Circle) (p : Point) : Prop :=
  c.center.x - c.radius ≤ p.x ∧ p.x ≤ c.center.x + c.radius ∧
    c.center.y - c.radius ≤ p.y ∧ p.y ≤ c.center.y + c.radius

/-- `Circle#containsPoint(p)`: bounding-box short circuit, then squared
distance against squared radius. -/
def Circle.containsPoint (c : Circle) (p : Point) : Prop :=
  c.boundingRectContainsPoint p ∧
    (c.center.x - p.x) * (c.center.x - p.x) + (c.center.y - p.y) * (c.center.y - p.y) ≤
      c.radius * c.radius

/-- `Circle#constrainPoint(p)`: if `p` is outside the circle, project it to
the circumference at the angle of `p` from the center. -/
noncomputable def Circle.constrainPoint (c : Circle) (p : Point) : Point :=
  if c.containsPoint p then p
  else
    c.center.add (Point.rotate ⟨c.radius, 0⟩ ((p.subtract c.center).getAngle))

/-- `Polygon.getArea(points)`: the shoelace sum `(Σ pᵢ.x·pᵢ₊₁.y - Σ pᵢ.y·pᵢ₊₁.x) / 2`
over consecutive pairs wrapping from the last point back to the first
(`arr[(i + 1) % arr.length]`, realised with `List.rotate 1`). -/
noncomputable def Polygon.getArea (points : List Point) : ℝ :=
  (((points.zip (points.rotate 1)).map fun q => q.1.x * q.2.y - q.1.y * q.2.x).sum) / 2

/-- A class representing a bezier curve (`class BezierCurve`). -/
structure BezierCurve where
  p1 : Point
  c1 : Point
  c2 : Point
  p2 : Point

/-- `BezierCurve#getPointForTime(t)`: cubic Bernstein-basis evaluation. -/
def BezierCurve.getPointForTime (c : BezierCurve) (t : ℝ) : Point :=
  let b0 := (1 - t) ^ 3
  let b1 := 3 * t * (1 - t) ^ 2
  let b2 := 3 * t ^ 2 * (1 - t)
  let b3 := t ^ 3
  ⟨b0 * c.p1.x + b1 * c.c1.x + b2 * c.c2.x + b3 * c.p2.x,
   b0 * c.p1.y + b1 * c.c1.y + b2 * c.c2.y + b3 * c.p2.y⟩

/-- The peel path set by `setPeelPath`: a flat line segment (4 arguments)
or a bezier curve (8 arguments). -/
inductive PeelPath where
  | line (seg : LineSegment)
  | bezier (curve : BezierCurve)

/-- Dispatch of `this.path.getPointForTime(t)`. -/
noncomputable def PeelPath.getPointForTime : PeelPath → ℝ → Point
  | .line seg, t => seg.getPointForTime t
  | .bezier c, t => c.getPointForTime t

/-- `clamp(n)`: `Math.max(0, Math.min(1, n))`. -/
noncomputable def clamp (n : ℝ) : ℝ := max 0 (min 1 n)

/-- `normalize(n, min, max)`: `(n - min) / (max - min)`. -/
noncomputable def normalize (n mn mx : ℝ) : ℝ := (n - mn) / (mx - mn)

/-- `distribute(t, mult)`: `(mult || 1) * 2 * (.5 - Math.abs(t - .5))`.
JavaScript `mult || 1` substitutes `1` when `mult` is falsy, in particular
when `mult` is exactly `0`. -/
noncomputable def distribute (t mult : ℝ) : ℝ :=
  (if mult = 0 then 1 else mult) * 2 * (1 / 2 - |t - 1 / 2|)

/-- `Peel#distributeOrLinear(n, dist, mult)`. -/
noncomputable def distributeOrLinear (n : ℝ) (dist : Bool) (mult : ℝ) : ℝ :=
  if dist then distribute n mult else n * mult

/-- `Peel#getCornerPoint(id)` for a container of extent `w × h`:
`x = +!!(id & 1) * width`, `y = +!!(id & 2) * height`.  Corner ids
(`Peel.Corners`): `TOP_LEFT = 0`, `TOP_RIGHT = 1`, `BOTTOM_LEFT = 2`,
`BOTTOM_RIGHT = 3`. -/
def getCornerPointWH (w h : ℝ) (id : ℕ) : Point :=
  ⟨if id &&& 1 = 1 then w else 0, if id &&& 2 = 2 then h else 0⟩

/-- `Peel#getScaledBox(scale)`: four boundary segments (top, right, bottom,
left) of the box scaled outward from the container origin. -/
def getScaledBox (w h scale : ℝ) : List LineSegment :=
  let brScale := scale
  let tlScale := scale - 1
  let tl : Point := ⟨-w * tlScale, -h * tlScale⟩
  let tr : Point := ⟨w * brScale, -h * tlScale⟩
  let br : Point := ⟨w * brScale, h * brScale⟩
  let bl : Point := ⟨-w * tlScale, h * brScale⟩
  [LineSegment.mk tl tr, LineSegment.mk tr br, LineSegment.mk br bl, LineSegment.mk bl tl]

/-- The per-instance mutable state of a `Peel` object that the geometric
engine reads and writes.  DOM layer handles are omitted; the option record
is restricted to the numeric options the engine consumes.  `peelLineSegment`
and `peelLineRotation` are `undefined` in JS until the first position
update; they are initialised to dummy values here and never read before
being set in the theorems below.  `fadeThreshold = 0` encodes "unset" (both
`undefined` and `0` are falsy in the `if (threshold)` test of `setFade`). -/
structure PeelState where
  width : ℝ
  height : ℝ
  center : Point
  corner : Point
  constraints : List Circle
  flipConstraint : Option Circle
  path : Option PeelPath
  timeAlongPath : Option ℝ
  peelLineSegment : LineSegment
  peelLineRotation : ℝ
  fadeThreshold : ℝ
  flipConstraintOffset : ℝ
  clippingBoxScale : ℝ

/-- `Peel#getCornerPoint(id)`. -/
def getCornerPoint (s : PeelState) (id : ℕ) : Point :=
  getCornerPointWH s.width s.height id

/-- `Peel#flipPointHorizontally(p)`: mirror about the container's vertical
center line. -/
def flipPointHorizontally (s : PeelState) (p : Point) : Point :=
  ⟨p.x - (p.x - s.center.x) * 2, p.y⟩

/-- `Peel#distributePointByPeelLine(p, poly1, poly2)`: skip a missing point
(`if (!p) return`), otherwise add it to `poly1` when the fold-line
determinant is `≤ 0` and (mirrored) to `poly2` — when one was passed —
when the determinant is `≥ 0`. -/
noncomputable def distributePointByPeelLine (s : PeelState) (p : Option Point)
    (poly1 : List Point) (poly2 : Option (List Point)) :
    List Point × Option (List Point) :=
  match p with
  | none => (poly1, poly2)
  | some p =>
    let d := s.peelLineSegment.getPointDeterminant p
    let poly1 := if d ≤ 0 then poly1 ++ [p] else poly1
    let poly2 := if 0 ≤ d then poly2.map (fun l => l ++ [flipPointHorizontally s p]) else poly2
    (poly1, poly2)

/-- `Peel#distributeLineByPeelLine(seg, poly1, poly2)`: distribute the
segment's first point and its intersection with the peel line, if any. -/
noncomputable def distributeLineByPeelLine (s : PeelState) (seg : LineSegment)
    (poly1 : List Point) (poly2 : Option (List Point)) :
    List Point × Option (List Point) :=
  let intersect := s.peelLineSegment.getIntersectPoint seg
  let out := distributePointByPeelLine s (some seg.p1) poly1 poly2
  distributePointByPeelLine s intersect out.1 out.2

/-- The `elementBox` computed by `Peel#setupDimensions` (scale 1). -/
def elementBox (s : PeelState) : List LineSegment :=
  getScaledBox s.width s.height 1

/-- The `clippingBox` computed by `Peel#setupDimensions`
(scale `clippingBoxScale`, default 4). -/
def clippingBox (s : PeelState) : List LineSegment :=
  getScaledBox s.width s.height s.clippingBoxScale

/-- The point list of the `top` polygon built by `Peel#getTopClipArea`
(element box split by the peel line, front side only). -/
noncomputable def topClipPoints (s : PeelState) : List Point :=
  (elementBox s).foldl
    (fun top side => (distributeLineByPeelLine s side top none).1) []

/-- `Peel#getTopClipArea`. -/
noncomputable def getTopClipArea (s : PeelState) : ℝ :=
  Polygon.getArea (topClipPoints s)

/-- `Peel#getAmountClipped`: `normalize(topArea, totalArea, 0)`. -/
noncomputable def getAmountClipped (s : PeelState) : ℝ :=
  normalize (getTopClipArea s) (s.width * s.height) 0

/-- The body of the `forEach` loop of `Peel#setClipping`: one boundary
segment distributed into the accumulated (`top`, `back`) polygon pair. -/
noncomputable def clipStep (s : PeelState) (acc : List Point × List Point)
    (side : LineSegment) : List Point × List Point :=
  let out := distributeLineByPeelLine s side acc.1 (some acc.2)
  (out.1, out.2.getD acc.2)

/-- `Peel#setClipping`: split the clipping box by the peel line into the
front (`top`) and mirrored back polygons handed to the SVG clips. -/
noncomputable def setClipping (s : PeelState) : List Point × List Point :=
  (clippingBox s).foldl (clipStep s) ([], [])

/-- `Peel#getPeelLineSegment(point)`: perpendicular bisector of the
corner↔position segment, extended well past the container; when the
position coincides with the corner, `halfToCorner` is replaced by
`point − center` while the midpoint stays where it is. -/
noncomputable def getPeelLineSegment (s : PeelState) (point : Point) : LineSegment :=
  let halfToCorner := (s.corner.subtract point).scale (1 / 2)
  let midpoint := point.add halfToCorner
  let halfToCorner :=
    if halfToCorner.x = 0 ∧ halfToCorner.y = 0 then point.subtract s.center
    else halfToCorner
  let l := halfToCorner.getLength
  let mult := max s.width s.height / l * 10
  let half := (halfToCorner.rotate (-90)).scale mult
  ⟨midpoint.add half, midpoint.subtract half⟩

/-- `Peel#getFlipConstraintOffset(area, pos)`: the flip-smoothing radius
shrink, returned only for the flip constraint when a non-zero offset is
configured and the local position lies in the critical quadrant.  The
source compares `area === this.flipConstraint` by object identity; here the
circles in play are structurally distinct, so structural equality against
the stored flip constraint is the same test.  (The source also computes a
dead local `nCornerToConstraint`; it is omitted.) -/
noncomputable def getFlipConstraintOffset (s : PeelState) (area : Circle) (pos : Point) :
    Option ℝ :=
  let offset := s.flipConstraintOffset
  if s.flipConstraint = some area ∧ offset ≠ 0 then
    let cornerToCenter := s.corner.subtract s.center
    let cornerToConstraint := s.corner.subtract area.center
    let baseAngle := cornerToConstraint.getAngle
    let nPosToConstraint := (pos.subtract area.center).rotate (-baseAngle)
    let nPosToConstraint :=
      if cornerToCenter.x * cornerToCenter.y < 0 then
        Point.mk nPosToConstraint.x (nPosToConstraint.y * (-1))
      else nPosToConstraint
    if 0 < nPosToConstraint.x ∧ 0 < nPosToConstraint.y then
      some (normalize nPosToConstraint.getAngle 45 0 * offset)
    else none
  else none

/-- `Peel#getConstrainedPeelPosition(pos)`: fold the constraint circles in
insertion order over the candidate position; `if (offset)` shrinks the
circle for this call only when the returned offset is truthy (non-zero). -/
noncomputable def getConstrainedPeelPosition (s : PeelState) (pos : Point) : Point :=
  s.constraints.foldl
    (fun pos area =>
      let offset := (getFlipConstraintOffset s area pos).getD 0
      let area := if offset ≠ 0 then Circle.mk area.center (area.radius - offset) else area
      area.constrainPoint pos)
    pos

/-- `Peel#setPeelPosition`: constrain the position, rebuild the peel line
segment and its rotation.  (`if (!pos) return` never fires: a `Point` is
always truthy.  `setClipping`, `setBackTransform` and `setEffects` consume
the updated state and are modelled as the pure functions above/below.) -/
noncomputable def setPeelPosition (s : PeelState) (posArg : Point) : PeelState :=
  let pos := getConstrainedPeelPosition s posArg
  let seg := getPeelLineSegment s pos
  { s with peelLineSegment := seg, peelLineRotation := seg.getAngle }

/-- `Peel#setTimeAlongPath(t)`: clamp `t`, evaluate the path, store the
progress and run the position update.  When no path is configured the
source throws (`this.path` is `undefined`) before any state is written;
that is the `Except.error` case. -/
noncomputable def setTimeAlongPath (s : PeelState) (t : ℝ) : Except Unit PeelState :=
  match s.path with
  | none => .error ()
  | some path =>
    let t := clamp t
    let point := path.getPointForTime t
    .ok (setPeelPosition { s with timeAlongPath := some t } point)

/-- The corner pair selected by the 90°-bucket chain of
`Peel#getPeelLineDistance`.  In JS a rotation outside `[0, 360)` leaves
both ids `undefined` and `getCornerPoint(undefined)` yields `(0, 0)`,
i.e. the same output as id `0` for both; the final branch mirrors that. -/
noncomputable def peelLineDistanceCorners (s : PeelState) : Point × Point :=
  if s.peelLineRotation < 90 then (getCornerPoint s 1, getCornerPoint s 2)
  else if s.peelLineRotation < 180 then (getCornerPoint s 3, getCornerPoint s 0)
  else if s.peelLineRotation < 270 then (getCornerPoint s 2, getCornerPoint s 1)
  else if s.peelLineRotation < 360 then (getCornerPoint s 0, getCornerPoint s 3)
  else (getCornerPoint s 0, getCornerPoint s 0)

/-- `Peel#getPeelLineDistance`: intersect the peel line with the doubled
corner-to-corner diagonal; no intersection returns the overflow constant 2,
otherwise the distance ratio from the bucket corner. -/
noncomputable def getPeelLineDistance (s : PeelState) : ℝ :=
  let corner := (peelLineDistanceCorners s).1
  let opposingCorner := (peelLineDistanceCorners s).2
  let cornerToCorner := (LineSegment.mk corner opposingCorner).scale 2
  match s.peelLineSegment.getIntersectPoint cornerToCorner with
  | none => 2
  | some intersect =>
    (corner.subtract intersect).getLength / (corner.subtract opposingCorner).getLength

/-- The three opacity outputs written by `Peel#setFade`
(`setOpacity(this.topLayer/backLayer/bottomShadowElement, opacity)`). -/
structure FadeOut where
  topLayer : ℝ
  backLayer : ℝ
  bottomShadowElement : ℝ

/-- The fade progress `n` of `Peel#setFade`: the path time when one is
stored (`this.timeAlongPath !== undefined`), else the clipped-area ratio. -/
noncomputable def fadeProgress (s : PeelState) : ℝ :=
  match s.timeAlongPath with
  | some t => t
  | none => getAmountClipped s

/-- `Peel#setFade`: with a truthy threshold, emit one opacity to the top,
back and bottom-shadow layers; `none` models "no opacity written". -/
noncomputable def setFade (s : PeelState) : Option FadeOut :=
  if s.fadeThreshold ≠ 0 then
    let n := fadeProgress s
    let opacity := if n > s.fadeThreshold then (1 - n) / (1 - s.fadeThreshold) else 1
    some ⟨opacity, opacity, opacity⟩
  else none

/-- `Peel#calculateFlipConstraint`: `this.constraints.concat().sort(cmp)[0]`.
The comparator computes `aY`/`bY` but returns `a - b`, the numeric
difference of two `Circle` objects, which is `NaN`; per the ECMAScript
specification a `NaN` comparator result is treated as `0`, and
`Array.prototype.sort` is stable, so the sorted copy equals the original
list and element `[0]` is always the first constraint ever added (or
`undefined`, i.e. `none`, for an empty list). -/
def calculateFlipConstraint (s : PeelState) : PeelState :=
  { s with flipConstraint := s.constraints.head? }

/-- `Peel#addPeelConstraint`: push a circle centered at the hinge point
with radius frozen to its distance from the corner, then recompute the
flip constraint. -/
noncomputable def addPeelConstraint (s : PeelState) (p : Point) : PeelState :=
  let radius := (s.corner.subtract p).getLength
  calculateFlipConstraint { s with constraints := s.constraints ++ [Circle.mk p radius] }

/-- Modelled from the spec: "the flip constraint is recomputed after every
add as the constraint whose center's y-coordinate is numerically closest to
the corner's y-coordinate (ties broken by list order — first match wins
under a stable sort)".  This is also what the source's own doc comment for
`calculateFlipConstraint` describes ("checking which has a y value closes
to the corner"); it is stated separately so it can be compared with the
behaviour the code actually has. -/
noncomputable def flipConstraintSpec (corner : Point) (cs : List Circle) : Option Circle :=
  match cs with
  | [] => none
  | c :: rest =>
    some (rest.foldl
      (fun best c' =>
        if |corner.y - c'.center.y| < |corner.y - best.center.y| then c' else best)
      c)

/-- A fresh `Peel` instance for a `w × h` container with corner `cornerId`,
default options, and no constraints/path, as built by the constructor
before any position update. -/
noncomputable def initialState (w h : ℝ) (cornerId : ℕ) : PeelState where
  width := w
  height := h
  center := ⟨w / 2, h / 2⟩
  corner := getCornerPointWH w h cornerId
  constraints := []
  flipConstraint := none
  path := none
  timeAlongPath := none
  peelLineSegment := ⟨⟨0, 0⟩, ⟨0, 0⟩⟩
  peelLineRotation := 0
  fadeThreshold := 0
  flipConstraintOffset := 5
  clippingBoxScale := 4

/-- A 200×100 bottom-right-corner state with an explicitly given peel line
segment and a fade threshold of 0.9, used for concrete evaluations. -/
noncomputable def foldState (fold : LineSegment) : PeelState :=
  { initialState 200 100 3 with peelLineSegment := fold, fadeThreshold := 9 / 10 }

/-- Peel line far to the right of the box, oriented so every element-box
point lies on the back side: the front polygon comes out empty. -/
noncomputable def sFrontEmpty : PeelState :=
  foldState ⟨⟨10000, 1⟩, ⟨10000, 0⟩⟩

/-- Same peel line with the opposite orientation: every element-box point
lies on the front side and the front polygon is the whole box. -/
noncomputable def sFrontFull : PeelState :=
  foldState ⟨⟨10000, 0⟩, ⟨10000, 1⟩⟩

/-- A 200×100 bottom-right-corner state carrying the given constraint list
verbatim (no flip constraint selected, so no flip-smoothing shrink can
fire). -/
noncomputable def constraintState (cs : List Circle) : PeelState :=
  { initialState 200 100 3 with constraints := cs }

/-- A 200×100 bottom-right-corner state with a linear peel path from
`(0,0)` to `(10,10)`. -/
noncomputable def pathState : PeelState :=
  { initialState 200 100 3 with path := some (.line ⟨⟨0, 0⟩, ⟨10, 10⟩⟩) }

/-- The peel-line distance observed after driving the default
200×100/bottom-right instance to the diagonal position
`corner + t · (oppositeCorner − corner) = ((1−t)·200, (1−t)·100)`. -/
noncomputable def diagPeelDistance (t : ℝ) : ℝ :=
  getPeelLineDistance
    (setPeelPosition (initialState 200 100 3) ⟨(1 - t) * 200, (1 - t) * 100⟩)

/-- Two constraints added to the default 200×100 bottom-right instance:
first a hinge at `(0, 0)` (center y = 0, distance 100 from the corner's
y = 100), then a hinge at `(0, 100)` (center y = 100, distance 0). -/
noncomputable def flipBugState : PeelState :=
  addPeelConstraint (addPeelConstraint (initialState 200 100 3) ⟨0, 0⟩) ⟨0, 100⟩

/-! ## Lemmas and theorems -/


lemma DEGREES_IN_RADIANS_pos : 0 < DEGREES_IN_RADIANS := by
  unfold DEGREES_IN_RADIANS
  positivity

lemma DEGREES_IN_RADIANS_ne_zero : DEGREES_IN_RADIANS ≠ 0 :=
  ne_of_gt DEGREES_IN_RADIANS_pos

/-- The degree-normalisation loop only shifts the angle by full turns:
converting `radToDeg r + d` back to radians gives `r + degToRad d` up to an
integer number of `2 * π` turns. -/
lemma degToRad_radToDeg_add (r d : ℝ) :
    ∃ k : ℤ, Point.degToRad (Point.radToDeg r + d) =
      r + Point.degToRad d + k * (2 * Real.pi) := by
  have hc : DEGREES_IN_RADIANS ≠ 0 := DEGREES_IN_RADIANS_ne_zero
  have hpi : Real.pi ≠ 0 := Real.pi_ne_zero
  unfold Point.radToDeg Point.degToRad
  split
  · refine ⟨⌈(-(r * DEGREES_IN_RADIANS)) / 360⌉, ?_⟩
    unfold DEGREES_IN_RADIANS at *
    field_simp
    try ring
  · refine ⟨0, ?_⟩
    field_simp
    try ring

lemma cos_degToRad_radToDeg_add (r d : ℝ) :
    Real.cos (Point.degToRad (Point.radToDeg r + d)) =
      Real.cos (r + Point.degToRad d) := by
  obtain ⟨k, hk⟩ := degToRad_radToDeg_add r d
  rw [hk, Real.cos_add_int_mul_two_pi]

lemma sin_degToRad_radToDeg_add (r d : ℝ) :
    Real.sin (Point.degToRad (Point.radToDeg r + d)) =
      Real.sin (r + Point.degToRad d) := by
  obtain ⟨k, hk⟩ := degToRad_radToDeg_add r d
  rw [hk, Real.sin_add_int_mul_two_pi]

lemma getLength_eq_complex_abs (p : Point) :
    p.getLength = Complex.abs ⟨p.x, p.y⟩ := by
  rw [Complex.abs_apply, Complex.normSq_mk]
  unfold Point.getLength
  congr 1
  ring

/-- The angle-reconstruction implementation of `rotate` agrees with the
rotation matrix (also at the zero vector, where both sides are zero). -/
lemma rotate_eq (p : Point) (d : ℝ) :
    p.rotate d =
      ⟨p.x * Real.cos (Point.degToRad d) - p.y * Real.sin (Point.degToRad d),
       p.x * Real.sin (Point.degToRad d) + p.y * Real.cos (Point.degToRad d)⟩ := by
  unfold Point.rotate Point.setAngle Point.vector Point.getAngle atan2
  by_cases hp : p.x = 0 ∧ p.y = 0
  · obtain ⟨hx, hy⟩ := hp
    have hlen : p.getLength = 0 := by
      unfold Point.getLength
      rw [hx, hy]
      simp
    simp [Point.mk.injEq, hlen, hx, hy]
  · have hz : (⟨p.x, p.y⟩ : ℂ) ≠ 0 := by
      intro h
      exact hp ⟨congrArg Complex.re h, congrArg Complex.im h⟩
    have habs : Complex.abs ⟨p.x, p.y⟩ ≠ 0 := (AbsoluteValue.ne_zero_iff _).mpr hz
    have hlen : p.getLength = Complex.abs ⟨p.x, p.y⟩ := getLength_eq_complex_abs p
    have hcos := Complex.cos_arg hz
    have hsin := Complex.sin_arg (⟨p.x, p.y⟩ : ℂ)
    simp only [hlen]
    have hre : (⟨p.x, p.y⟩ : ℂ).re = p.x := rfl
    have him : (⟨p.x, p.y⟩ : ℂ).im = p.y := rfl
    rw [hre] at hcos
    rw [him] at hsin
    have h1 := cos_degToRad_radToDeg_add (Complex.arg ⟨p.x, p.y⟩) d
    have h2 := sin_degToRad_radToDeg_add (Complex.arg ⟨p.x, p.y⟩) d
    rw [h1, h2, Real.cos_add, Real.sin_add, hcos, hsin]
    simp only [Point.mk.injEq]
    constructor
    · field_simp
      try ring
    · field_simp
      try ring

lemma sqrt_eval {a b : ℝ} (hb : 0 ≤ b) (h : b ^ 2 = a) : Real.sqrt a = b := by
  rw [← h, Real.sqrt_sq hb]

lemma cos_degToRad_radToDeg (r : ℝ) :
    Real.cos (Point.degToRad (Point.radToDeg r)) = Real.cos r := by
  have h := cos_degToRad_radToDeg_add r 0
  rw [add_zero] at h
  rw [h]
  unfold Point.degToRad
  rw [zero_div, add_zero]

lemma sin_degToRad_radToDeg (r : ℝ) :
    Real.sin (Point.degToRad (Point.radToDeg r)) = Real.sin r := by
  have h := sin_degToRad_radToDeg_add r 0
  rw [add_zero] at h
  rw [h]
  unfold Point.degToRad
  rw [zero_div, add_zero]

/-- `rotate(-90)` is the exact quarter-turn `(x, y) ↦ (y, -x)`. -/
lemma rotate_neg90 (p : Point) : p.rotate (-90) = ⟨p.y, -p.x⟩ := by
  have hδ : Point.degToRad (-90) = -(Real.pi / 2) := by
    unfold Point.degToRad DEGREES_IN_RADIANS
    have hpi : Real.pi ≠ 0 := Real.pi_ne_zero
    field_simp
    ring
  rw [rotate_eq, hδ, Real.cos_neg, Real.sin_neg, Real.cos_pi_div_two, Real.sin_pi_div_two]
  simp only [Point.mk.injEq]
  constructor <;> ring

/-- Rotating the base vector `(r, 0)` to the angle of a non-zero vector `q`
lands at `r` times the unit vector in the direction of `q`. -/
lemma rotate_base_getAngle (r : ℝ) (q : Point) (hq : ¬(q.x = 0 ∧ q.y = 0)) :
    Point.rotate ⟨r, 0⟩ q.getAngle =
      ⟨r * (q.x / q.getLength), r * (q.y / q.getLength)⟩ := by
  have hz : (⟨q.x, q.y⟩ : ℂ) ≠ 0 := fun h => hq ⟨congrArg Complex.re h, congrArg Complex.im h⟩
  have hlen := getLength_eq_complex_abs q
  rw [rotate_eq]
  unfold Point.getAngle atan2
  rw [cos_degToRad_radToDeg, sin_degToRad_radToDeg, Complex.cos_arg hz, Complex.sin_arg]
  simp only [Point.mk.injEq]
  rw [hlen]
  constructor <;> ring

lemma constrainPoint_of_contains {c : Circle} {p : Point} (h : c.containsPoint p) :
    c.constrainPoint p = p := by
  unfold Circle.constrainPoint
  rw [if_pos h]

lemma constrainPoint_of_not_contains {c : Circle} {p : Point}
    (h : ¬c.containsPoint p) (hne : ¬(p.x - c.center.x = 0 ∧ p.y - c.center.y = 0)) :
    c.constrainPoint p =
      ⟨c.center.x + c.radius * ((p.x - c.center.x) / (p.subtract c.center).getLength),
       c.center.y + c.radius * ((p.y - c.center.y) / (p.subtract c.center).getLength)⟩ := by
  unfold Circle.constrainPoint
  rw [if_neg h]
  have hsub : p.subtract c.center = ⟨p.x - c.center.x, p.y - c.center.y⟩ := rfl
  rw [rotate_base_getAngle c.radius (p.subtract c.center) (by rw [hsub]; exact hne)]
  rw [hsub]
  rfl

/-- Claim C9 (amended): `distributeOrLinear(t, true, mult)` is
`(mult || 1) * 2 * (0.5 - |t - 0.5|)` — the bell curve scaled by `mult`,
except that a zero multiplier is replaced by `1` by the JavaScript
`mult || 1` idiom — and `distributeOrLinear(t, false, mult)` is `t * mult`. -/
theorem claim_C9_distribute_or_linear (t mult : ℝ) :
    distributeOrLinear t true mult =
      (if mult = 0 then 1 else mult) * 2 * (1 / 2 - |t - 1 / 2|) ∧
    distributeOrLinear t false mult = t * mult := by
  unfold distributeOrLinear distribute
  simp

/-- Claim C9, counterexample to the claim as stated: at `mult = 0`,
`distributeOrLinear(0.5, true, 0)` evaluates to `1`, not to
`0 * 2 * (0.5 - |0.5 - 0.5|) = 0`. -/
theorem claim_C9_counterexample :
    distributeOrLinear (1 / 2) true 0 = 1 ∧
      (0 : ℝ) * 2 * (1 / 2 - |(1 / 2 : ℝ) - 1 / 2|) = 0 ∧ (1 : ℝ) ≠ 0 := by
  refine ⟨?_, by norm_num, by norm_num⟩
  unfold distributeOrLinear distribute
  norm_num

/-- Claim C9, witness: the amended description evaluated at `t = 1/4`,
`mult = 3`. -/
theorem claim_C9_witness :
    distributeOrLinear (1 / 4) true 3 = 3 * 2 * (1 / 2 - |(1 / 4 : ℝ) - 1 / 2|) ∧
    distributeOrLinear (1 / 4) false 3 = 1 / 4 * 3 := by
  have h := claim_C9_distribute_or_linear (1 / 4) 3
  refine ⟨?_, h.2⟩
  rw [h.1, if_neg (by norm_num)]

/-- Claim C6: `getIntersectPoint` returns `none` whenever the cross product
of the two direction vectors is 0 (parallel, including collinear); when the
cross product is non-zero it returns a point exactly when both line
parameters lie in `[0, 1]`; the crossing segments `(0,0)-(10,10)` and
`(0,10)-(10,0)` meet at exactly `(5,5)`, and the parallel segments
`(0,0)-(10,0)` and `(0,5)-(10,5)` yield no intersection. -/
theorem claim_C6_intersect :
    (∀ seg1 seg2 : LineSegment,
      crossProduct (seg1.p2.subtract seg1.p1) (seg2.p2.subtract seg2.p1) = 0 →
      seg1.getIntersectPoint seg2 = none) ∧
    (∀ seg1 seg2 : LineSegment,
      crossProduct (seg1.p2.subtract seg1.p1) (seg2.p2.subtract seg2.p1) ≠ 0 →
      ((∃ p, seg1.getIntersectPoint seg2 = some p) ↔
        (0 ≤ crossProduct (seg2.p1.subtract seg1.p1) (seg2.p2.subtract seg2.p1) /
              crossProduct (seg1.p2.subtract seg1.p1) (seg2.p2.subtract seg2.p1) ∧
         crossProduct (seg2.p1.subtract seg1.p1) (seg2.p2.subtract seg2.p1) /
              crossProduct (seg1.p2.subtract seg1.p1) (seg2.p2.subtract seg2.p1) ≤ 1 ∧
         0 ≤ crossProduct (seg2.p1.subtract seg1.p1) (seg1.p2.subtract seg1.p1) /
              crossProduct (seg1.p2.subtract seg1.p1) (seg2.p2.subtract seg2.p1) ∧
         crossProduct (seg2.p1.subtract seg1.p1) (seg1.p2.subtract seg1.p1) /
              crossProduct (seg1.p2.subtract seg1.p1) (seg2.p2.subtract seg2.p1) ≤ 1))) ∧
    (LineSegment.mk ⟨0, 0⟩ ⟨10, 10⟩).getIntersectPoint ⟨⟨0, 10⟩, ⟨10, 0⟩⟩ =
      some ⟨5, 5⟩ ∧
    (LineSegment.mk ⟨0, 0⟩ ⟨10, 0⟩).getIntersectPoint ⟨⟨0, 5⟩, ⟨10, 5⟩⟩ = none := by
  refine ⟨?_, ?_, ?_, ?_⟩
  · intro seg1 seg2 hpar
    unfold LineSegment.getIntersectPoint
    rw [if_pos hpar]
  · intro seg1 seg2 hpar
    unfold LineSegment.getIntersectPoint
    rw [if_neg hpar]
    constructor
    · rintro ⟨p, hp⟩
      by_contra hcond
      rw [if_neg ?_] at hp
      · exact Option.noConfusion hp
      · intro hc
        exact hcond ⟨hc.1, hc.2.1, hc.2.2.1, hc.2.2.2⟩
    · intro hcond
      rw [if_pos ⟨hcond.1, hcond.2.1, hcond.2.2.1, hcond.2.2.2⟩]
      exact ⟨_, rfl⟩
  · unfold LineSegment.getIntersectPoint crossProduct
    norm_num [Point.subtract, Point.add, Point.scale, Point.mk.injEq]
  · unfold LineSegment.getIntersectPoint crossProduct
    norm_num [Point.subtract]

/-- Claim C6, witness: the general clauses applied to the two concrete
segment pairs of the claim. -/
theorem claim_C6_witness :
    (LineSegment.mk ⟨0, 0⟩ ⟨10, 0⟩).getIntersectPoint ⟨⟨0, 5⟩, ⟨10, 5⟩⟩ = none ∧
    (∃ p, (LineSegment.mk ⟨0, 0⟩ ⟨10, 10⟩).getIntersectPoint ⟨⟨0, 10⟩, ⟨10, 0⟩⟩ = some p) := by
  constructor
  · exact claim_C6_intersect.1 ⟨⟨0, 0⟩, ⟨10, 0⟩⟩ ⟨⟨0, 5⟩, ⟨10, 5⟩⟩
      (by norm_num [crossProduct, Point.subtract])
  · exact (claim_C6_intersect.2.1 ⟨⟨0, 0⟩, ⟨10, 10⟩⟩ ⟨⟨0, 10⟩, ⟨10, 0⟩⟩
      (by norm_num [crossProduct, Point.subtract])).mpr
      (by norm_num [crossProduct, Point.subtract])

/-- Claim C4: a raw fold-line determinant strictly within `1e-6` of zero is
snapped to exactly 0; a point with determinant `≤ 0` goes to the front
polygon with unchanged coordinates; a point with determinant `≥ 0` goes to
the back polygon after horizontal mirroring about the container's vertical
center line; a point with determinant exactly 0 goes to both. -/
theorem claim_C4_distribute_points :
    (∀ (seg : LineSegment) (p : Point),
      |(p.x - seg.p1.x) * (seg.p2.y - seg.p1.y) - (p.y - seg.p1.y) * (seg.p2.x - seg.p1.x)|
          < 1 / 1000000 →
      seg.getPointDeterminant p = 0) ∧
    (∀ (s : PeelState) (p : Point) (poly1 : List Point) (poly2 : Option (List Point)),
      s.peelLineSegment.getPointDeterminant p ≤ 0 →
      (distributePointByPeelLine s (some p) poly1 poly2).1 = poly1 ++ [p]) ∧
    (∀ (s : PeelState) (p : Point) (poly1 poly2 : List Point),
      0 ≤ s.peelLineSegment.getPointDeterminant p →
      (distributePointByPeelLine s (some p) poly1 (some poly2)).2 =
        some (poly2 ++ [flipPointHorizontally s p])) ∧
    (∀ (s : PeelState) (p : Point) (poly1 poly2 : List Point),
      s.peelLineSegment.getPointDeterminant p = 0 →
      distributePointByPeelLine s (some p) poly1 (some poly2) =
        (poly1 ++ [p], some (poly2 ++ [flipPointHorizontally s p]))) := by
  refine ⟨?_, ?_, ?_, ?_⟩
  · intro seg p habs
    unfold LineSegment.getPointDeterminant
    rw [if_pos]
    rw [abs_lt] at habs
    unfold LineSegment.EPSILON
    exact ⟨by linarith [habs.1], by linarith [habs.2]⟩
  · intro s p poly1 poly2 hd
    unfold distributePointByPeelLine
    dsimp only
    rw [if_pos hd]
  · intro s p poly1 poly2 hd
    unfold distributePointByPeelLine
    dsimp only
    rw [if_pos hd]
    rfl
  · intro s p poly1 poly2 hd
    unfold distributePointByPeelLine
    dsimp only
    rw [if_pos (le_of_eq hd), if_pos (ge_of_eq hd)]
    rfl

/-- Claim C4, witness: the four clauses evaluated against the horizontal
segment `(0,0)-(10,0)` (as the peel line of a 200×100 state): the point
`(5, 1e-8)` has raw determinant `-1e-7`, snapped to 0; `(5, 1)` has
determinant `-10` and lands in the front polygon unchanged; `(5, -1)` has
determinant `10` and lands mirrored (about `x = 100`) in the back polygon;
`(5, 0)` has determinant 0 and lands in both. -/
theorem claim_C4_witness :
    (LineSegment.mk ⟨0, 0⟩ ⟨10, 0⟩).getPointDeterminant ⟨5, 1 / 100000000⟩ = 0 ∧
    (distributePointByPeelLine (foldState ⟨⟨0, 0⟩, ⟨10, 0⟩⟩) (some ⟨5, 1⟩) [] (some [])).1 =
      [] ++ [⟨5, 1⟩] ∧
    (distributePointByPeelLine (foldState ⟨⟨0, 0⟩, ⟨10, 0⟩⟩) (some ⟨5, -1⟩) [] (some [])).2 =
      some ([] ++ [flipPointHorizontally (foldState ⟨⟨0, 0⟩, ⟨10, 0⟩⟩) ⟨5, -1⟩]) ∧
    distributePointByPeelLine (foldState ⟨⟨0, 0⟩, ⟨10, 0⟩⟩) (some ⟨5, 0⟩) [] (some []) =
      ([] ++ [⟨5, 0⟩],
        some ([] ++ [flipPointHorizontally (foldState ⟨⟨0, 0⟩, ⟨10, 0⟩⟩) ⟨5, 0⟩])) := by
  have hseg : (foldState ⟨⟨0, 0⟩, ⟨10, 0⟩⟩).peelLineSegment = ⟨⟨0, 0⟩, ⟨10, 0⟩⟩ := rfl
  have hdet : ∀ y : ℝ, (LineSegment.mk ⟨0, 0⟩ ⟨10, 0⟩).getPointDeterminant ⟨5, y⟩ =
      if -LineSegment.EPSILON < -(y * 10) ∧ -(y * 10) < LineSegment.EPSILON then 0
      else -(y * 10) := by
    intro y
    unfold LineSegment.getPointDeterminant
    norm_num
  refine ⟨?_, ?_, ?_, ?_⟩
  · exact claim_C4_distribute_points.1 ⟨⟨0, 0⟩, ⟨10, 0⟩⟩ ⟨5, 1 / 100000000⟩ (by
      have : (((5 : ℝ) - 0) * (0 - 0) - (1 / 100000000 - 0) * (10 - 0)) = -(1 / 10000000) := by
        norm_num
      rw [this, abs_neg, abs_of_nonneg (by norm_num)]
      norm_num)
  · exact claim_C4_distribute_points.2.1 (foldState ⟨⟨0, 0⟩, ⟨10, 0⟩⟩) ⟨5, 1⟩ [] (some []) (by
      rw [hseg, hdet 1]
      rw [if_neg (by unfold LineSegment.EPSILON; norm_num)]
      norm_num)
  · exact claim_C4_distribute_points.2.2.1 (foldState ⟨⟨0, 0⟩, ⟨10, 0⟩⟩) ⟨5, -1⟩ [] [] (by
      rw [hseg, hdet (-1)]
      rw [if_neg (by unfold LineSegment.EPSILON; norm_num)]
      norm_num)
  · exact claim_C4_distribute_points.2.2.2 (foldState ⟨⟨0, 0⟩, ⟨10, 0⟩⟩) ⟨5, 0⟩ [] [] (by
      rw [hseg, hdet 0]
      rw [if_pos (by unfold LineSegment.EPSILON; norm_num)])

/-- Claim C8: `setTimeAlongPath(t)` clamps `t` to `[0, 1]`, stores the
clamped value as the current progress, and feeds the path point at the
clamped time into the position-update pipeline; with no configured path it
fails (the source throws on `this.path.getPointForTime`) without touching
the state. -/
theorem claim_C8_set_time_along_path (s : PeelState) (t : ℝ) :
    (s.path = none → setTimeAlongPath s t = Except.error ()) ∧
    (∀ p, s.path = some p →
      setTimeAlongPath s t =
        Except.ok (setPeelPosition { s with timeAlongPath := some (clamp t) }
          (p.getPointForTime (clamp t))) ∧
      0 ≤ clamp t ∧ clamp t ≤ 1 ∧
      (setPeelPosition { s with timeAlongPath := some (clamp t) }
          (p.getPointForTime (clamp t))).timeAlongPath = some (clamp t)) := by
  constructor
  · intro hp
    unfold setTimeAlongPath
    rw [hp]
  · intro p hp
    refine ⟨?_, le_max_left 0 _, max_le (by norm_num) (min_le_left 1 t), rfl⟩
    unfold setTimeAlongPath
    rw [hp]

/-- Claim C8, witness: on a state with the linear path `(0,0)-(10,10)`,
`setTimeAlongPath 2` clamps the time to 1, succeeds, evaluates the path at
`(10, 10)`, and stores progress 1; on the same state without a path it
errors. -/
theorem claim_C8_witness :
    clamp 2 = 1 ∧
    (PeelPath.line ⟨⟨0, 0⟩, ⟨10, 10⟩⟩).getPointForTime (clamp 2) = ⟨10, 10⟩ ∧
    setTimeAlongPath pathState 2 =
      Except.ok (setPeelPosition { pathState with timeAlongPath := some (clamp 2) }
        ((PeelPath.line ⟨⟨0, 0⟩, ⟨10, 10⟩⟩).getPointForTime (clamp 2))) ∧
    (setPeelPosition { pathState with timeAlongPath := some (clamp 2) }
        ((PeelPath.line ⟨⟨0, 0⟩, ⟨10, 10⟩⟩).getPointForTime (clamp 2))).timeAlongPath =
      some (clamp 2) ∧
    setTimeAlongPath { pathState with path := none } 2 = Except.error () := by
  have hclamp : clamp 2 = 1 := by
    unfold clamp
    norm_num
  have h := claim_C8_set_time_along_path pathState 2
  have hp : pathState.path = some (.line ⟨⟨0, 0⟩, ⟨10, 10⟩⟩) := rfl
  obtain ⟨hok, _, _, hstore⟩ := h.2 _ hp
  refine ⟨hclamp, ?_, hok, hstore, ?_⟩
  · rw [hclamp]
    unfold PeelPath.getPointForTime LineSegment.getPointForTime LineSegment.getVector
    norm_num [Point.subtract, Point.add, Point.scale, Point.mk.injEq]
  · exact (claim_C8_set_time_along_path { pathState with path := none } 2).1 rfl

lemma getFlipConstraintOffset_of_no_flip {s : PeelState} (h : s.flipConstraint = none)
    (area : Circle) (pos : Point) : getFlipConstraintOffset s area pos = none := by
  unfold getFlipConstraintOffset
  rw [if_neg]
  intro hc
  rw [h] at hc
  exact Option.noConfusion hc.1

/-- With no flip constraint selected, clamping is exactly the sequential
fold of `Circle.constrainPoint` over the constraint list in insertion
order. -/
lemma getConstrainedPeelPosition_no_flip {s : PeelState} (h : s.flipConstraint = none)
    (pos : Point) :
    getConstrainedPeelPosition s pos =
      s.constraints.foldl (fun pos area => area.constrainPoint pos) pos := by
  unfold getConstrainedPeelPosition
  congr 1
  funext pos area
  rw [getFlipConstraintOffset_of_no_flip h]
  dsimp only [Option.getD]
  rw [if_neg (by simp)]

lemma length_m40_0 : (Point.subtract ⟨0, 20⟩ ⟨40, 20⟩).getLength = 40 := by
  unfold Point.subtract Point.getLength
  dsimp only
  rw [show ((0 : ℝ) - 40) ^ 2 + ((20 : ℝ) - 20) ^ 2 = 40 ^ 2 by norm_num]
  exact Real.sqrt_sq (by norm_num)

lemma length_15_20 : (Point.subtract ⟨15, 20⟩ ⟨0, 0⟩).getLength = 25 := by
  unfold Point.subtract Point.getLength
  dsimp only
  rw [show ((15 : ℝ) - 0) ^ 2 + ((20 : ℝ) - 0) ^ 2 = 25 ^ 2 by norm_num]
  exact Real.sqrt_sq (by norm_num)

lemma constrainA_at : Circle.constrainPoint ⟨⟨0, 0⟩, 20⟩ ⟨0, 20⟩ = ⟨0, 20⟩ := by
  apply constrainPoint_of_contains
  unfold Circle.containsPoint Circle.boundingRectContainsPoint
  norm_num

lemma constrainB_at : Circle.constrainPoint ⟨⟨40, 20⟩, 25⟩ ⟨0, 20⟩ = ⟨15, 20⟩ := by
  rw [constrainPoint_of_not_contains (c := ⟨⟨40, 20⟩, 25⟩) (p := ⟨0, 20⟩) ?_ (by norm_num)]
  · rw [length_m40_0]
    simp only [Point.mk.injEq]
    norm_num
  · unfold Circle.containsPoint Circle.boundingRectContainsPoint
    norm_num

lemma constrainA_at2 : Circle.constrainPoint ⟨⟨0, 0⟩, 20⟩ ⟨15, 20⟩ = ⟨12, 16⟩ := by
  rw [constrainPoint_of_not_contains (c := ⟨⟨0, 0⟩, 20⟩) (p := ⟨15, 20⟩) ?_ (by norm_num)]
  · rw [length_15_20]
    simp only [Point.mk.injEq]
    norm_num
  · unfold Circle.containsPoint Circle.boundingRectContainsPoint
    norm_num

/-- Claim C2: clamping folds `Circle.constrainPoint` over the constraints
sequentially in insertion order (the flip-offset shrink cannot fire here,
as no flip constraint is selected), and sequential clamping is
order-dependent: for the genuinely overlapping circles
`A = circle((0,0), 20)` and `B = circle((40,20), 25)` and the candidate
position `(0, 20)`, clamping in order `[A, B]` gives `(15, 20)` while
clamping in order `[B, A]` gives `(12, 16)`. -/
theorem claim_C2_sequential_clamp_order_dependent :
    (|(20 : ℝ) - 25| < (Point.subtract ⟨40, 20⟩ ⟨0, 0⟩).getLength ∧
      (Point.subtract ⟨40, 20⟩ ⟨0, 0⟩).getLength < 20 + 25) ∧
    getConstrainedPeelPosition (constraintState [⟨⟨0, 0⟩, 20⟩, ⟨⟨40, 20⟩, 25⟩]) ⟨0, 20⟩ =
      ⟨15, 20⟩ ∧
    getConstrainedPeelPosition (constraintState [⟨⟨40, 20⟩, 25⟩, ⟨⟨0, 0⟩, 20⟩]) ⟨0, 20⟩ =
      ⟨12, 16⟩ ∧
    Point.mk 15 20 ≠ Point.mk 12 16 := by
  refine ⟨⟨?_, ?_⟩, ?_, ?_, ?_⟩
  · have hlen : (Point.subtract ⟨40, 20⟩ ⟨0, 0⟩).getLength = Real.sqrt 2000 := by
      unfold Point.subtract Point.getLength
      norm_num
    rw [hlen]
    have h1 := Real.sq_sqrt (show (0 : ℝ) ≤ 2000 by norm_num)
    have h2 := Real.sqrt_nonneg (2000 : ℝ)
    rw [show |(20 : ℝ) - 25| = 5 by rw [abs_of_nonpos (by norm_num)]; norm_num]
    nlinarith
  · have hlen : (Point.subtract ⟨40, 20⟩ ⟨0, 0⟩).getLength = Real.sqrt 2000 := by
      unfold Point.subtract Point.getLength
      norm_num
    rw [hlen]
    have h1 := Real.sq_sqrt (show (0 : ℝ) ≤ 2000 by norm_num)
    have h2 := Real.sqrt_nonneg (2000 : ℝ)
    nlinarith
  · rw [getConstrainedPeelPosition_no_flip rfl]
    show Circle.constrainPoint ⟨⟨40, 20⟩, 25⟩
      (Circle.constrainPoint ⟨⟨0, 0⟩, 20⟩ ⟨0, 20⟩) = ⟨15, 20⟩
    rw [constrainA_at, constrainB_at]
  · rw [getConstrainedPeelPosition_no_flip rfl]
    show Circle.constrainPoint ⟨⟨0, 0⟩, 20⟩
      (Circle.constrainPoint ⟨⟨40, 20⟩, 25⟩ ⟨0, 20⟩) = ⟨12, 16⟩
    rw [constrainB_at, constrainA_at2]
  · intro heq
    have hx := congrArg Point.x heq
    norm_num at hx

lemma getArea_nil : Polygon.getArea [] = 0 := by
  unfold Polygon.getArea
  simp

lemma getArea_four (a b c d : Point) :
    Polygon.getArea [a, b, c, d] =
      ((a.x * b.y - a.y * b.x) + (b.x * c.y - b.y * c.x) +
        (c.x * d.y - c.y * d.x) + (d.x * a.y - d.y * a.x)) / 2 := by
  unfold Polygon.getArea
  have hrot : ([a, b, c, d] : List Point).rotate 1 = [b, c, d, a] := by
    simp [List.rotate]
  rw [hrot]
  simp only [List.zip_cons_cons, List.zip_nil_right, List.map_cons, List.map_nil,
    List.sum_cons, List.sum_nil]
  ring

/-- Claim C1: the stored flip constraint after the two `addPeelConstraint`
calls of `flipBugState` is the FIRST constraint added (center `(0, 0)`),
while the selection described by the claim — and by the source's own doc
comment — is the constraint whose center y is numerically closest to the
corner's y, i.e. the second one (center `(0, 100)`).  The comparator
returns `a - b` on two `Circle` objects, which is `NaN`, treated as `0`,
so the stable sort never reorders and `[0]` is always the first element. -/
theorem claim_C1_flip_constraint_first_added :
    flipBugState.flipConstraint.map Circle.center = some ⟨0, 0⟩ ∧
    (flipConstraintSpec flipBugState.corner flipBugState.constraints).map Circle.center =
      some ⟨0, 100⟩ ∧
    Point.mk 0 0 ≠ Point.mk 0 100 := by
  have hcorner : flipBugState.corner = ⟨200, 100⟩ := by
    show getCornerPointWH 200 100 3 = ⟨200, 100⟩
    unfold getCornerPointWH
    rw [if_pos (by decide), if_pos (by decide)]
  have hcons : flipBugState.constraints =
      [⟨⟨0, 0⟩, (Point.subtract (getCornerPointWH 200 100 3) ⟨0, 0⟩).getLength⟩,
       ⟨⟨0, 100⟩, (Point.subtract (getCornerPointWH 200 100 3) ⟨0, 100⟩).getLength⟩] := by
    unfold flipBugState addPeelConstraint calculateFlipConstraint initialState
    simp
  refine ⟨?_, ?_, ?_⟩
  · have hflip : flipBugState.flipConstraint =
        some ⟨⟨0, 0⟩, (Point.subtract (getCornerPointWH 200 100 3) ⟨0, 0⟩).getLength⟩ := by
      unfold flipBugState addPeelConstraint calculateFlipConstraint initialState
      simp
    rw [hflip]
    rfl
  · rw [hcorner, hcons]
    unfold flipConstraintSpec
    simp only [List.foldl_cons, List.foldl_nil]
    rw [if_pos]
    · rfl
    · norm_num
  · intro heq
    have hy := congrArg Point.y heq
    norm_num at hy

/-- Claim C10: `getAmountClipped` is `1 - A / (width · height)` for the
signed shoelace area `A` of the front polygon of the element-box split; it
is exactly 1 when that polygon is empty and exactly 0 when it is the full
box `[tl, tr, br, bl]`, whose signed area is `width · height`. -/
theorem claim_C10_amount_clipped :
    (∀ s : PeelState, s.width * s.height ≠ 0 →
      getAmountClipped s = 1 - getTopClipArea s / (s.width * s.height)) ∧
    (∀ s : PeelState, s.width * s.height ≠ 0 → topClipPoints s = [] →
      getAmountClipped s = 1) ∧
    (∀ s : PeelState,
      topClipPoints s = [⟨0, 0⟩, ⟨s.width, 0⟩, ⟨s.width, s.height⟩, ⟨0, s.height⟩] →
      Polygon.getArea (topClipPoints s) = s.width * s.height ∧ getAmountClipped s = 0) := by
  refine ⟨?_, ?_, ?_⟩
  · intro s hwh
    have hw : s.width ≠ 0 := left_ne_zero_of_mul hwh
    have hh : s.height ≠ 0 := right_ne_zero_of_mul hwh
    unfold getAmountClipped normalize
    field_simp
    ring
  · intro s hwh htop
    unfold getAmountClipped normalize getTopClipArea
    rw [htop, getArea_nil]
    rw [zero_sub, neg_div_neg_eq, div_self hwh]
  · intro s htop
    have harea : Polygon.getArea (topClipPoints s) = s.width * s.height := by
      rw [htop, getArea_four]
      dsimp only
      ring
    refine ⟨harea, ?_⟩
    unfold getAmountClipped normalize getTopClipArea
    rw [harea]
    simp

lemma dlbl_fst_of_int_none {s : PeelState} {seg : LineSegment} {poly1 : List Point}
    {poly2 : Option (List Point)}
    (hint : s.peelLineSegment.getIntersectPoint seg = none) :
    (distributeLineByPeelLine s seg poly1 poly2).1 =
      if s.peelLineSegment.getPointDeterminant seg.p1 ≤ 0 then poly1 ++ [seg.p1]
      else poly1 := by
  unfold distributeLineByPeelLine
  rw [hint]
  unfold distributePointByPeelLine
  dsimp only

lemma elementBox_200_100 {s : PeelState} (hw : s.width = 200) (hh : s.height = 100) :
    elementBox s =
      [⟨⟨0, 0⟩, ⟨200, 0⟩⟩, ⟨⟨200, 0⟩, ⟨200, 100⟩⟩,
       ⟨⟨200, 100⟩, ⟨0, 100⟩⟩, ⟨⟨0, 100⟩, ⟨0, 0⟩⟩] := by
  unfold elementBox getScaledBox
  rw [hw, hh]
  norm_num [LineSegment.mk.injEq, Point.mk.injEq]

lemma detE_eval (x y : ℝ) :
    LineSegment.getPointDeterminant ⟨⟨10000, 1⟩, ⟨10000, 0⟩⟩ ⟨x, y⟩ =
      if -LineSegment.EPSILON < 10000 - x ∧ 10000 - x < LineSegment.EPSILON then 0
      else 10000 - x := by
  unfold LineSegment.getPointDeterminant
  dsimp only
  rw [show (x - 10000) * ((0 : ℝ) - 1) - (y - 1) * ((10000 : ℝ) - 10000) = 10000 - x by ring]

lemma detF_eval (x y : ℝ) :
    LineSegment.getPointDeterminant ⟨⟨10000, 0⟩, ⟨10000, 1⟩⟩ ⟨x, y⟩ =
      if -LineSegment.EPSILON < x - 10000 ∧ x - 10000 < LineSegment.EPSILON then 0
      else x - 10000 := by
  unfold LineSegment.getPointDeterminant
  dsimp only
  rw [show (x - 10000) * ((1 : ℝ) - 0) - (y - 0) * ((10000 : ℝ) - 10000) = x - 10000 by ring]

lemma detE_not_le {x y : ℝ} (hx : x ≤ 200) :
    ¬ sFrontEmpty.peelLineSegment.getPointDeterminant ⟨x, y⟩ ≤ 0 := by
  show ¬ LineSegment.getPointDeterminant ⟨⟨10000, 1⟩, ⟨10000, 0⟩⟩ ⟨x, y⟩ ≤ 0
  rw [detE_eval x y, if_neg]
  · intro hle
    linarith
  · unfold LineSegment.EPSILON
    intro hc
    have := hc.2
    linarith

lemma detF_le {x y : ℝ} (hx : x ≤ 200) :
    sFrontFull.peelLineSegment.getPointDeterminant ⟨x, y⟩ ≤ 0 := by
  show LineSegment.getPointDeterminant ⟨⟨10000, 0⟩, ⟨10000, 1⟩⟩ ⟨x, y⟩ ≤ 0
  rw [detF_eval x y]
  split_ifs <;> linarith

lemma intE_side1 : sFrontEmpty.peelLineSegment.getIntersectPoint ⟨⟨0, 0⟩, ⟨200, 0⟩⟩ = none := by
  show LineSegment.getIntersectPoint ⟨⟨10000, 1⟩, ⟨10000, 0⟩⟩ ⟨⟨0, 0⟩, ⟨200, 0⟩⟩ = none
  unfold LineSegment.getIntersectPoint crossProduct Point.subtract
  norm_num

lemma intE_side2 : sFrontEmpty.peelLineSegment.getIntersectPoint ⟨⟨200, 0⟩, ⟨200, 100⟩⟩ = none := by
  show LineSegment.getIntersectPoint ⟨⟨10000, 1⟩, ⟨10000, 0⟩⟩ ⟨⟨200, 0⟩, ⟨200, 100⟩⟩ = none
  unfold LineSegment.getIntersectPoint crossProduct Point.subtract
  norm_num

lemma intE_side3 : sFrontEmpty.peelLineSegment.getIntersectPoint ⟨⟨200, 100⟩, ⟨0, 100⟩⟩ = none := by
  show LineSegment.getIntersectPoint ⟨⟨10000, 1⟩, ⟨10000, 0⟩⟩ ⟨⟨200, 100⟩, ⟨0, 100⟩⟩ = none
  unfold LineSegment.getIntersectPoint crossProduct Point.subtract
  norm_num

lemma intE_side4 : sFrontEmpty.peelLineSegment.getIntersectPoint ⟨⟨0, 100⟩, ⟨0, 0⟩⟩ = none := by
  show LineSegment.getIntersectPoint ⟨⟨10000, 1⟩, ⟨10000, 0⟩⟩ ⟨⟨0, 100⟩, ⟨0, 0⟩⟩ = none
  unfold LineSegment.getIntersectPoint crossProduct Point.subtract
  norm_num

lemma intF_side1 : sFrontFull.peelLineSegment.getIntersectPoint ⟨⟨0, 0⟩, ⟨200, 0⟩⟩ = none := by
  show LineSegment.getIntersectPoint ⟨⟨10000, 0⟩, ⟨10000, 1⟩⟩ ⟨⟨0, 0⟩, ⟨200, 0⟩⟩ = none
  unfold LineSegment.getIntersectPoint crossProduct Point.subtract
  norm_num

lemma intF_side2 : sFrontFull.peelLineSegment.getIntersectPoint ⟨⟨200, 0⟩, ⟨200, 100⟩⟩ = none := by
  show LineSegment.getIntersectPoint ⟨⟨10000, 0⟩, ⟨10000, 1⟩⟩ ⟨⟨200, 0⟩, ⟨200, 100⟩⟩ = none
  unfold LineSegment.getIntersectPoint crossProduct Point.subtract
  norm_num

lemma intF_side3 : sFrontFull.peelLineSegment.getIntersectPoint ⟨⟨200, 100⟩, ⟨0, 100⟩⟩ = none := by
  show LineSegment.getIntersectPoint ⟨⟨10000, 0⟩, ⟨10000, 1⟩⟩ ⟨⟨200, 100⟩, ⟨0, 100⟩⟩ = none
  unfold LineSegment.getIntersectPoint crossProduct Point.subtract
  norm_num

lemma intF_side4 : sFrontFull.peelLineSegment.getIntersectPoint ⟨⟨0, 100⟩, ⟨0, 0⟩⟩ = none := by
  show LineSegment.getIntersectPoint ⟨⟨10000, 0⟩, ⟨10000, 1⟩⟩ ⟨⟨0, 100⟩, ⟨0, 0⟩⟩ = none
  unfold LineSegment.getIntersectPoint crossProduct Point.subtract
  norm_num

lemma topClipPoints_sFrontEmpty : topClipPoints sFrontEmpty = [] := by
  unfold topClipPoints
  rw [elementBox_200_100 rfl rfl]
  simp only [List.foldl_cons, List.foldl_nil]
  rw [dlbl_fst_of_int_none intE_side1, if_neg (detE_not_le (by norm_num))]
  rw [dlbl_fst_of_int_none intE_side2, if_neg (detE_not_le (by norm_num))]
  rw [dlbl_fst_of_int_none intE_side3, if_neg (detE_not_le (by norm_num))]
  rw [dlbl_fst_of_int_none intE_side4, if_neg (detE_not_le (by norm_num))]

lemma topClipPoints_sFrontFull :
    topClipPoints sFrontFull = [⟨0, 0⟩, ⟨200, 0⟩, ⟨200, 100⟩, ⟨0, 100⟩] := by
  unfold topClipPoints
  rw [elementBox_200_100 rfl rfl]
  simp only [List.foldl_cons, List.foldl_nil]
  rw [dlbl_fst_of_int_none intF_side1, if_pos (detF_le (by norm_num))]
  rw [dlbl_fst_of_int_none intF_side2, if_pos (detF_le (by norm_num))]
  rw [dlbl_fst_of_int_none intF_side3, if_pos (detF_le (by norm_num))]
  rw [dlbl_fst_of_int_none intF_side4, if_pos (detF_le (by norm_num))]
  rfl

lemma amountClipped_sFrontEmpty : getAmountClipped sFrontEmpty = 1 := by
  unfold getAmountClipped normalize getTopClipArea
  rw [topClipPoints_sFrontEmpty, getArea_nil]
  have hw : sFrontEmpty.width = 200 := rfl
  have hh : sFrontEmpty.height = 100 := rfl
  rw [hw, hh]
  norm_num

/-- Claim C7: with a fade threshold θ > 0, the fade progress `n` is the
stored path time when one exists and the element-box clipped-area ratio
otherwise, and once `n` exceeds θ the single opacity `(1 - n) / (1 - θ)` is
written to the top (front) layer, the back layer and the bottom-shadow
layer alike. -/
theorem claim_C7_fade (s : PeelState) (h0 : 0 < s.fadeThreshold)
    (hn : s.fadeThreshold < fadeProgress s) :
    setFade s =
      some ⟨(1 - fadeProgress s) / (1 - s.fadeThreshold),
            (1 - fadeProgress s) / (1 - s.fadeThreshold),
            (1 - fadeProgress s) / (1 - s.fadeThreshold)⟩ ∧
    (∀ t, s.timeAlongPath = some t → fadeProgress s = t) ∧
    (s.timeAlongPath = none → fadeProgress s = getAmountClipped s) := by
  refine ⟨?_, ?_, ?_⟩
  · unfold setFade
    rw [if_pos (ne_of_gt h0)]
    dsimp only
    rw [if_pos hn]
  · intro t ht
    unfold fadeProgress
    rw [ht]
  · intro ht
    unfold fadeProgress
    rw [ht]

/-- Claim C7, witness: `sFrontEmpty` has threshold 0.9, no path, and a
clipped-area ratio of exactly 1, so all three emitted opacities are 0. -/
theorem claim_C7_witness : setFade sFrontEmpty = some ⟨0, 0, 0⟩ := by
  have hfp : fadeProgress sFrontEmpty = 1 := by
    unfold fadeProgress
    have ht : sFrontEmpty.timeAlongPath = none := rfl
    rw [ht]
    exact amountClipped_sFrontEmpty
  have hθ : sFrontEmpty.fadeThreshold = 9 / 10 := rfl
  have h := claim_C7_fade sFrontEmpty (by rw [hθ]; norm_num) (by rw [hθ, hfp]; norm_num)
  rw [h.1, hfp, hθ]
  norm_num

/-- Claim C10, witness: the two identified front polygons realised — the
empty polygon (`sFrontEmpty`, ratio exactly 1) and the full element box
(`sFrontFull`, ratio exactly 0). -/
theorem claim_C10_witness :
    getAmountClipped sFrontEmpty = 1 ∧ getAmountClipped sFrontFull = 0 := by
  constructor
  · exact claim_C10_amount_clipped.2.1 sFrontEmpty (by norm_num [show sFrontEmpty.width = 200 from rfl, show sFrontEmpty.height = 100 from rfl])
      topClipPoints_sFrontEmpty
  · exact (claim_C10_amount_clipped.2.2 sFrontFull (by
      rw [topClipPoints_sFrontFull]
      rfl)).2

lemma dpbl_fst_append (s : PeelState) (p : Option Point) (poly1 : List Point)
    (poly2 : Option (List Point)) :
    ∃ e, (distributePointByPeelLine s p poly1 poly2).1 = poly1 ++ e := by
  unfold distributePointByPeelLine
  cases p with
  | none => exact ⟨[], (List.append_nil poly1).symm⟩
  | some q =>
    dsimp only
    split_ifs with hd
    · exact ⟨[q], rfl⟩
    · exact ⟨[], (List.append_nil poly1).symm⟩

lemma dlbl_fst_append (s : PeelState) (seg : LineSegment) (poly1 : List Point)
    (poly2 : Option (List Point)) :
    ∃ e, (distributeLineByPeelLine s seg poly1 poly2).1 = poly1 ++ e := by
  unfold distributeLineByPeelLine
  dsimp only
  obtain ⟨e1, h1⟩ := dpbl_fst_append s (some seg.p1) poly1 poly2
  obtain ⟨e2, h2⟩ :=
    dpbl_fst_append s (s.peelLineSegment.getIntersectPoint seg)
      (distributePointByPeelLine s (some seg.p1) poly1 poly2).1
      (distributePointByPeelLine s (some seg.p1) poly1 poly2).2
  refine ⟨e1 ++ e2, ?_⟩
  rw [h2, h1, List.append_assoc]

lemma dlbl_fst_ne_nil_of_det (s : PeelState) (seg : LineSegment) (poly1 : List Point)
    (poly2 : Option (List Point))
    (hd : s.peelLineSegment.getPointDeterminant seg.p1 ≤ 0) :
    (distributeLineByPeelLine s seg poly1 poly2).1 ≠ [] := by
  unfold distributeLineByPeelLine
  dsimp only
  obtain ⟨e2, h2⟩ :=
    dpbl_fst_append s (s.peelLineSegment.getIntersectPoint seg)
      (distributePointByPeelLine s (some seg.p1) poly1 poly2).1
      (distributePointByPeelLine s (some seg.p1) poly1 poly2).2
  rw [h2]
  have hout : (distributePointByPeelLine s (some seg.p1) poly1 poly2).1 =
      poly1 ++ [seg.p1] := by
    unfold distributePointByPeelLine
    dsimp only
    rw [if_pos hd]
  rw [hout]
  simp

lemma dlbl_fst_ne_nil_of_ne (s : PeelState) (seg : LineSegment) (poly1 : List Point)
    (poly2 : Option (List Point)) (h : poly1 ≠ []) :
    (distributeLineByPeelLine s seg poly1 poly2).1 ≠ [] := by
  obtain ⟨e, he⟩ := dlbl_fst_append s seg poly1 poly2
  rw [he]
  intro hc
  exact h (List.append_eq_nil.mp hc).1

lemma clipStep_fst (s : PeelState) (acc : List Point × List Point) (side : LineSegment) :
    (clipStep s acc side).1 = (distributeLineByPeelLine s side acc.1 (some acc.2)).1 := rfl

lemma foldl_clipStep_ne_nil (s : PeelState) (sides : List LineSegment)
    (acc : List Point × List Point) (h : acc.1 ≠ []) :
    (sides.foldl (clipStep s) acc).1 ≠ [] := by
  induction sides generalizing acc with
  | nil => exact h
  | cons hd rest ih =>
    simp only [List.foldl_cons]
    apply ih
    rw [clipStep_fst]
    exact dlbl_fst_ne_nil_of_ne _ _ _ _ h

lemma foldl_clipStep_ne_nil_of_mem (s : PeelState) (sides : List LineSegment)
    (acc : List Point × List Point) (side : LineSegment) (hmem : side ∈ sides)
    (hdet : s.peelLineSegment.getPointDeterminant side.p1 ≤ 0) :
    (sides.foldl (clipStep s) acc).1 ≠ [] := by
  induction sides generalizing acc with
  | nil => cases hmem
  | cons hd rest ih =>
    simp only [List.foldl_cons]
    rcases List.mem_cons.mp hmem with heq | hmem2
    · subst heq
      apply foldl_clipStep_ne_nil
      rw [clipStep_fst]
      exact dlbl_fst_ne_nil_of_det _ _ _ _ hdet
    · exact ih _ hmem2

/-- At `point = corner`, `getPeelLineSegment` takes the degenerate branch:
`halfToCorner` is `(0, 0)`, the midpoint stays at the corner, and the
direction is rebuilt from `corner - center`. -/
lemma getPeelLineSegment_at_corner (s : PeelState) :
    getPeelLineSegment s s.corner =
      ⟨s.corner.add
         ⟨(s.corner.subtract s.center).y *
            (max s.width s.height / (s.corner.subtract s.center).getLength * 10),
          -(s.corner.subtract s.center).x *
            (max s.width s.height / (s.corner.subtract s.center).getLength * 10)⟩,
       s.corner.subtract
         ⟨(s.corner.subtract s.center).y *
            (max s.width s.height / (s.corner.subtract s.center).getLength * 10),
          -(s.corner.subtract s.center).x *
            (max s.width s.height / (s.corner.subtract s.center).getLength * 10)⟩⟩ := by
  simp only [getPeelLineSegment]
  have hzero : (s.corner.subtract s.corner).scale (1 / 2) = (⟨0, 0⟩ : Point) := by
    cases s.corner
    unfold Point.subtract Point.scale
    simp
  rw [hzero]
  rw [if_pos ⟨rfl, rfl⟩]
  have hmid : s.corner.add ⟨0, 0⟩ = s.corner := by
    cases s.corner
    unfold Point.add
    simp
  rw [hmid, rotate_neg90]
  unfold Point.scale
  rfl

/-- The snapped determinant against the degenerate corner fold is
`2 m ((p - corner) ⬝ (corner - center))` before snapping; in particular it
stays `≤ 0` whenever that raw value is. -/
lemma det_of_corner_fold (c v : Point) (m : ℝ) (p : Point)
    (hneg : 2 * m * ((p.x - c.x) * v.x + (p.y - c.y) * v.y) ≤ 0) :
    LineSegment.getPointDeterminant
      ⟨c.add ⟨v.y * m, -v.x * m⟩, c.subtract ⟨v.y * m, -v.x * m⟩⟩ p ≤ 0 := by
  unfold LineSegment.getPointDeterminant Point.add Point.subtract
  dsimp only
  rw [show (p.x - (c.x + v.y * m)) * (c.y - -v.x * m - (c.y + -v.x * m)) -
        (p.y - (c.y + -v.x * m)) * (c.x - v.y * m - (c.x + v.y * m)) =
      2 * m * ((p.x - c.x) * v.x + (p.y - c.y) * v.y) by ring]
  split_ifs with hsnap
  · exact le_refl 0
  · exact hneg

lemma setPeelPosition_no_constraints {s : PeelState} (h : s.constraints = [])
    (pos : Point) :
    setPeelPosition s pos =
      { s with peelLineSegment := getPeelLineSegment s pos,
               peelLineRotation := (getPeelLineSegment s pos).getAngle } := by
  unfold setPeelPosition getConstrainedPeelPosition
  rw [h]
  rfl

/-- Shared core of claim C5: for any state with no constraints, clipping
scale whose box contains a boundary segment starting on the non-fold side,
and a corner off the container center horizontally, updating the position
to the corner itself keeps the fold midpoint at the corner, yields a fold
segment of non-zero length, and produces a non-empty front polygon. -/
lemma C5_core (s0 : PeelState) (hcons : s0.constraints = [])
    (hvx : (s0.corner.subtract s0.center).x ≠ 0)
    (hmaxpos : 0 < max s0.width s0.height)
    (side : LineSegment) (hmem : side ∈ clippingBox s0)
    (hdot : (side.p1.x - s0.corner.x) * (s0.corner.subtract s0.center).x +
        (side.p1.y - s0.corner.y) * (s0.corner.subtract s0.center).y ≤ 0) :
    (setPeelPosition s0 s0.corner).peelLineSegment.p1.add
        (setPeelPosition s0 s0.corner).peelLineSegment.p2 = s0.corner.scale 2 ∧
    (setPeelPosition s0 s0.corner).peelLineSegment.p1 ≠
      (setPeelPosition s0 s0.corner).peelLineSegment.p2 ∧
    (setClipping (setPeelPosition s0 s0.corner)).1 ≠ [] := by
  have hl : 0 < (s0.corner.subtract s0.center).getLength := by
    unfold Point.getLength
    apply Real.sqrt_pos.mpr
    have h1 : 0 < (s0.corner.subtract s0.center).x ^ 2 := pow_two_pos_of_ne_zero hvx
    have h2 : 0 ≤ (s0.corner.subtract s0.center).y ^ 2 := sq_nonneg _
    linarith
  have hm : 0 < max s0.width s0.height / (s0.corner.subtract s0.center).getLength * 10 :=
    mul_pos (div_pos hmaxpos hl) (by norm_num)
  have hfold : (setPeelPosition s0 s0.corner).peelLineSegment =
      ⟨s0.corner.add
         ⟨(s0.corner.subtract s0.center).y *
            (max s0.width s0.height / (s0.corner.subtract s0.center).getLength * 10),
          -(s0.corner.subtract s0.center).x *
            (max s0.width s0.height / (s0.corner.subtract s0.center).getLength * 10)⟩,
       s0.corner.subtract
         ⟨(s0.corner.subtract s0.center).y *
            (max s0.width s0.height / (s0.corner.subtract s0.center).getLength * 10),
          -(s0.corner.subtract s0.center).x *
            (max s0.width s0.height / (s0.corner.subtract s0.center).getLength * 10)⟩⟩ := by
    rw [setPeelPosition_no_constraints hcons]
    exact getPeelLineSegment_at_corner s0
  refine ⟨?_, ?_, ?_⟩
  · rw [hfold]
    simp only [Point.add, Point.subtract, Point.scale, Point.mk.injEq]
    constructor <;> ring
  · rw [hfold]
    intro heq
    have hy := congrArg Point.y heq
    simp only [Point.add, Point.subtract] at hy hvx hm
    have hzero : (s0.corner.x - s0.center.x) *
        (max s0.width s0.height /
          Point.getLength ⟨s0.corner.x - s0.center.x, s0.corner.y - s0.center.y⟩ * 10) = 0 := by
      linear_combination (-1 / 2) * hy
    rcases mul_eq_zero.mp hzero with hx0 | hm0
    · exact hvx hx0
    · rw [hm0] at hm
      exact lt_irrefl 0 hm
  · unfold setClipping
    apply foldl_clipStep_ne_nil_of_mem _ _ _ side
    · show side ∈ clippingBox s0
      exact hmem
    · rw [hfold]
      refine det_of_corner_fold s0.corner (s0.corner.subtract s0.center)
        (max s0.width s0.height / (s0.corner.subtract s0.center).getLength * 10) side.p1 ?_
      have h2m : 0 ≤ 2 * (max s0.width s0.height / (s0.corner.subtract s0.center).getLength * 10) :=
        by linarith
      have hdot2 : (side.p1.x - s0.corner.x) * (s0.corner.subtract s0.center).x +
          (side.p1.y - s0.corner.y) * (s0.corner.subtract s0.center).y ≤ 0 := hdot
      exact mul_nonpos_of_nonneg_of_nonpos h2m hdot2

lemma clippingBox_initialState (w h : ℝ) (cid : ℕ) :
    clippingBox (initialState w h cid) =
      [⟨⟨-(w * 3), -(h * 3)⟩, ⟨w * 4, -(h * 3)⟩⟩,
       ⟨⟨w * 4, -(h * 3)⟩, ⟨w * 4, h * 4⟩⟩,
       ⟨⟨w * 4, h * 4⟩, ⟨-(w * 3), h * 4⟩⟩,
       ⟨⟨-(w * 3), h * 4⟩, ⟨-(w * 3), -(h * 3)⟩⟩] := by
  unfold clippingBox getScaledBox
  rw [show (initialState w h cid).width = w from rfl,
      show (initialState w h cid).height = h from rfl,
      show (initialState w h cid).clippingBoxScale = 4 from rfl]
  norm_num [LineSegment.mk.injEq, Point.mk.injEq]

lemma corner_init_0 (w h : ℝ) : (initialState w h 0).corner = ⟨0, 0⟩ := by
  show getCornerPointWH w h 0 = _
  unfold getCornerPointWH
  rw [if_neg (by decide), if_neg (by decide)]

lemma corner_init_1 (w h : ℝ) : (initialState w h 1).corner = ⟨w, 0⟩ := by
  show getCornerPointWH w h 1 = _
  unfold getCornerPointWH
  rw [if_pos (by decide), if_neg (by decide)]

lemma corner_init_2 (w h : ℝ) : (initialState w h 2).corner = ⟨0, h⟩ := by
  show getCornerPointWH w h 2 = _
  unfold getCornerPointWH
  rw [if_neg (by decide), if_pos (by decide)]

lemma corner_init_3 (w h : ℝ) : (initialState w h 3).corner = ⟨w, h⟩ := by
  show getCornerPointWH w h 3 = _
  unfold getCornerPointWH
  rw [if_pos (by decide), if_pos (by decide)]

/-- Claim C5: for every container with positive extent and every anchor
corner, updating the position to the anchor corner itself takes the
degenerate-fold substitution and still yields a fold segment whose midpoint
is the corner (`p1 + p2 = 2 · corner`), whose endpoints differ (non-zero
length), and a non-empty front clip polygon. -/
theorem claim_C5_degenerate_fold (w h : ℝ) (cid : ℕ)
    (hw : 0 < w) (hh : 0 < h) (hcid : cid < 4) :
    (setPeelPosition (initialState w h cid) (initialState w h cid).corner).peelLineSegment.p1.add
        (setPeelPosition (initialState w h cid) (initialState w h cid).corner).peelLineSegment.p2 =
      (initialState w h cid).corner.scale 2 ∧
    (setPeelPosition (initialState w h cid) (initialState w h cid).corner).peelLineSegment.p1 ≠
      (setPeelPosition (initialState w h cid) (initialState w h cid).corner).peelLineSegment.p2 ∧
    (setClipping (setPeelPosition (initialState w h cid) (initialState w h cid).corner)).1 ≠ [] := by
  have hmax : 0 < max w h := lt_of_lt_of_le hw (le_max_left w h)
  interval_cases cid
  · refine C5_core (initialState w h 0) rfl ?_ hmax
      ⟨⟨w * 4, h * 4⟩, ⟨-(w * 3), h * 4⟩⟩ ?_ ?_
    · rw [corner_init_0, show (initialState w h 0).center = ⟨w / 2, h / 2⟩ from rfl]
      simp only [Point.subtract]
      intro hx
      linarith
    · rw [clippingBox_initialState]
      simp
    · rw [corner_init_0, show (initialState w h 0).center = ⟨w / 2, h / 2⟩ from rfl]
      simp only [Point.subtract]
      nlinarith [sq_nonneg w, sq_nonneg h]
  · refine C5_core (initialState w h 1) rfl ?_ hmax
      ⟨⟨-(w * 3), h * 4⟩, ⟨-(w * 3), -(h * 3)⟩⟩ ?_ ?_
    · rw [corner_init_1, show (initialState w h 1).center = ⟨w / 2, h / 2⟩ from rfl]
      simp only [Point.subtract]
      intro hx
      linarith
    · rw [clippingBox_initialState]
      simp
    · rw [corner_init_1, show (initialState w h 1).center = ⟨w / 2, h / 2⟩ from rfl]
      simp only [Point.subtract]
      nlinarith [sq_nonneg w, sq_nonneg h]
  · refine C5_core (initialState w h 2) rfl ?_ hmax
      ⟨⟨w * 4, -(h * 3)⟩, ⟨w * 4, h * 4⟩⟩ ?_ ?_
    · rw [corner_init_2, show (initialState w h 2).center = ⟨w / 2, h / 2⟩ from rfl]
      simp only [Point.subtract]
      intro hx
      linarith
    · rw [clippingBox_initialState]
      simp
    · rw [corner_init_2, show (initialState w h 2).center = ⟨w / 2, h / 2⟩ from rfl]
      simp only [Point.subtract]
      nlinarith [sq_nonneg w, sq_nonneg h]
  · refine C5_core (initialState w h 3) rfl ?_ hmax
      ⟨⟨-(w * 3), -(h * 3)⟩, ⟨w * 4, -(h * 3)⟩⟩ ?_ ?_
    · rw [corner_init_3, show (initialState w h 3).center = ⟨w / 2, h / 2⟩ from rfl]
      simp only [Point.subtract]
      intro hx
      linarith
    · rw [clippingBox_initialState]
      simp
    · rw [corner_init_3, show (initialState w h 3).center = ⟨w / 2, h / 2⟩ from rfl]
      simp only [Point.subtract]
      nlinarith [sq_nonneg w, sq_nonneg h]

/-- Claim C5, witness: the claim's end-to-end scenario — width 200, height
100, default options, anchor corner BOTTOM_RIGHT `(200, 100)`. -/
theorem claim_C5_witness :
    (setPeelPosition (initialState 200 100 3) (initialState 200 100 3).corner).peelLineSegment.p1.add
        (setPeelPosition (initialState 200 100 3) (initialState 200 100 3).corner).peelLineSegment.p2 =
      (initialState 200 100 3).corner.scale 2 ∧
    (setPeelPosition (initialState 200 100 3) (initialState 200 100 3).corner).peelLineSegment.p1 ≠
      (setPeelPosition (initialState 200 100 3) (initialState 200 100 3).corner).peelLineSegment.p2 ∧
    (setClipping (setPeelPosition (initialState 200 100 3) (initialState 200 100 3).corner)).1 ≠ [] :=
  claim_C5_degenerate_fold 200 100 3 (by norm_num) (by norm_num) (by norm_num)

lemma sqrt5_pos : 0 < Real.sqrt 5 := Real.sqrt_pos.mpr (by norm_num)

lemma sqrt5_ne_zero : Real.sqrt 5 ≠ 0 := ne_of_gt sqrt5_pos

lemma sqrt5_mul_self : Real.sqrt 5 * Real.sqrt 5 = 5 :=
  Real.mul_self_sqrt (by norm_num)

lemma radToDeg_of_nonneg {r : ℝ} (h : 0 ≤ r) :
    Point.radToDeg r = r * DEGREES_IN_RADIANS := by
  unfold Point.radToDeg
  rw [if_neg]
  push_neg
  exact mul_nonneg h (le_of_lt DEGREES_IN_RADIANS_pos)

/-- On the corner-to-opposite diagonal of the 200×100 bottom-right
instance, the peel line segment built for the position at parameter `t`
has the perpendicular half-vector `(2000/√5, -4000/√5)` around the
midpoint `(200 - 100 t, 100 - 50 t)` — for `t = 0` through the degenerate
branch and for `t > 0` through the ordinary one. -/
lemma diag_fold_eval (t : ℝ) (h0 : 0 ≤ t) (h1 : t ≤ 1) :
    getPeelLineSegment (initialState 200 100 3) ⟨(1 - t) * 200, (1 - t) * 100⟩ =
      ⟨⟨200 - 100 * t + 2000 / Real.sqrt 5, 100 - 50 * t - 4000 / Real.sqrt 5⟩,
       ⟨200 - 100 * t - 2000 / Real.sqrt 5, 100 - 50 * t + 4000 / Real.sqrt 5⟩⟩ := by
  have h5 := sqrt5_pos
  have h5ne := sqrt5_ne_zero
  have h5sq := sqrt5_mul_self
  simp only [getPeelLineSegment]
  rw [corner_init_3 200 100,
      show (initialState 200 100 3).center = ⟨200 / 2, 100 / 2⟩ from rfl,
      show (initialState 200 100 3).width = 200 from rfl,
      show (initialState 200 100 3).height = 100 from rfl]
  simp only [Point.subtract, Point.scale, Point.add]
  rw [show max (200 : ℝ) 100 = 200 from max_eq_left (by norm_num)]
  by_cases ht : t = 0
  · subst ht
    rw [if_pos (by norm_num)]
    rw [rotate_neg90]
    unfold Point.getLength
    simp only [Point.scale, Point.mk.injEq]
    have hlen : Real.sqrt (((1 - 0) * 200 - 200 / 2) ^ 2 + ((1 - 0) * 100 - 100 / 2) ^ 2) =
        50 * Real.sqrt 5 := by
      rw [show ((1 - (0 : ℝ)) * 200 - 200 / 2) ^ 2 + ((1 - (0 : ℝ)) * 100 - 100 / 2) ^ 2 =
          (50 * Real.sqrt 5) ^ 2 by linear_combination (-2500 : ℝ) * h5sq]
      exact Real.sqrt_sq (by positivity)
    rw [hlen]
    simp only [LineSegment.mk.injEq, Point.mk.injEq]
    refine ⟨⟨?_, ?_⟩, ?_, ?_⟩ <;> (field_simp; ring)
  · have htpos : 0 < t := lt_of_le_of_ne h0 (Ne.symm ht)
    rw [if_neg]
    · rw [rotate_neg90]
      unfold Point.getLength
      simp only [Point.scale, Point.mk.injEq]
      have hlen : Real.sqrt (((200 - (1 - t) * 200) * (1 / 2)) ^ 2 +
          ((100 - (1 - t) * 100) * (1 / 2)) ^ 2) = 50 * Real.sqrt 5 * t := by
        rw [show ((200 - (1 - t) * 200) * (1 / 2)) ^ 2 +
            ((100 - (1 - t) * 100) * (1 / 2)) ^ 2 = (50 * Real.sqrt 5 * t) ^ 2 by
          linear_combination (-2500 : ℝ) * t ^ 2 * h5sq]
        exact Real.sqrt_sq (by positivity)
      rw [hlen]
      have htne : t ≠ 0 := ht
      simp only [LineSegment.mk.injEq, Point.mk.injEq]
      refine ⟨⟨?_, ?_⟩, ?_, ?_⟩ <;> (field_simp; ring)
    · intro hc
      apply ht
      have hx := hc.1
      linarith

lemma diag_rotation_eval (t : ℝ) (h0 : 0 ≤ t) (h1 : t ≤ 1) :
    (setPeelPosition (initialState 200 100 3)
        ⟨(1 - t) * 200, (1 - t) * 100⟩).peelLineRotation =
      Point.getAngle ⟨-(4000 / Real.sqrt 5), 8000 / Real.sqrt 5⟩ := by
  rw [setPeelPosition_no_constraints rfl]
  show (getPeelLineSegment (initialState 200 100 3)
      ⟨(1 - t) * 200, (1 - t) * 100⟩).getAngle = _
  rw [diag_fold_eval t h0 h1]
  unfold LineSegment.getAngle LineSegment.getVector
  congr 1
  simp only [Point.subtract, Point.mk.injEq]
  constructor <;> ring

lemma diag_rotation_bounds :
    90 ≤ Point.getAngle ⟨-(4000 / Real.sqrt 5), 8000 / Real.sqrt 5⟩ ∧
    Point.getAngle ⟨-(4000 / Real.sqrt 5), 8000 / Real.sqrt 5⟩ < 180 := by
  have h5 := sqrt5_pos
  have hre : (-(4000 / Real.sqrt 5) : ℝ) < 0 := by
    rw [neg_lt_zero]
    positivity
  have him : (0 : ℝ) < 8000 / Real.sqrt 5 := by positivity
  have harg1 : Real.pi / 2 < Complex.arg ⟨-(4000 / Real.sqrt 5), 8000 / Real.sqrt 5⟩ := by
    by_contra hle
    push_neg at hle
    rcases Complex.arg_le_pi_div_two_iff.mp hle with hc | hc
    · exact absurd hc (not_le.mpr hre)
    · exact absurd hc (not_lt.mpr (le_of_lt him))
  have harg2 : Complex.arg ⟨-(4000 / Real.sqrt 5), 8000 / Real.sqrt 5⟩ < Real.pi :=
    Complex.arg_lt_pi_iff.mpr (Or.inr (ne_of_gt him))
  have hargnn : 0 ≤ Complex.arg ⟨-(4000 / Real.sqrt 5), 8000 / Real.sqrt 5⟩ :=
    Complex.arg_nonneg_iff.mpr (le_of_lt him)
  have hdir := DEGREES_IN_RADIANS_pos
  have h90 : Real.pi / 2 * DEGREES_IN_RADIANS = 90 := by
    unfold DEGREES_IN_RADIANS
    field_simp
    ring
  have h180 : Real.pi * DEGREES_IN_RADIANS = 180 := by
    unfold DEGREES_IN_RADIANS
    field_simp
  unfold Point.getAngle atan2
  dsimp only
  rw [radToDeg_of_nonneg hargnn]
  constructor
  · rw [← h90]
    exact le_of_lt (mul_lt_mul_of_pos_right harg1 hdir)
  · rw [← h180]
    exact mul_lt_mul_of_pos_right harg2 hdir

lemma getIntersectPoint_eval (seg1 seg2 : LineSegment) (D tN uN : ℝ)
    (hD : crossProduct (seg1.p2.subtract seg1.p1) (seg2.p2.subtract seg2.p1) = D)
    (htN : crossProduct (seg2.p1.subtract seg1.p1) (seg2.p2.subtract seg2.p1) = tN)
    (huN : crossProduct (seg2.p1.subtract seg1.p1) (seg1.p2.subtract seg1.p1) = uN)
    (hDne : D ≠ 0)
    (ht0 : 0 ≤ tN / D) (ht1 : tN / D ≤ 1) (hu0 : 0 ≤ uN / D) (hu1 : uN / D ≤ 1) :
    seg1.getIntersectPoint seg2 =
      some (seg1.p1.add ((seg1.p2.subtract seg1.p1).scale (tN / D))) := by
  unfold LineSegment.getIntersectPoint
  dsimp only
  rw [hD, htN, huN]
  rw [if_neg hDne, if_pos ⟨ht0, ht1, hu0, hu1⟩]

lemma diag_intersect_eval (t : ℝ) (h0 : 0 ≤ t) (h1 : t ≤ 1) :
    LineSegment.getIntersectPoint
      ⟨⟨200 - 100 * t + 2000 / Real.sqrt 5, 100 - 50 * t - 4000 / Real.sqrt 5⟩,
       ⟨200 - 100 * t - 2000 / Real.sqrt 5, 100 - 50 * t + 4000 / Real.sqrt 5⟩⟩
      ((LineSegment.mk ⟨200, 100⟩ ⟨0, 0⟩).scale 2) =
      some ⟨200 - 100 * t, 100 - 50 * t⟩ := by
  have h5 := sqrt5_pos
  have h5ne := sqrt5_ne_zero
  have hD : crossProduct
      ((LineSegment.mk
          (⟨200 - 100 * t + 2000 / Real.sqrt 5, 100 - 50 * t - 4000 / Real.sqrt 5⟩ : Point)
          ⟨200 - 100 * t - 2000 / Real.sqrt 5, 100 - 50 * t + 4000 / Real.sqrt 5⟩).p2.subtract
        (LineSegment.mk
          (⟨200 - 100 * t + 2000 / Real.sqrt 5, 100 - 50 * t - 4000 / Real.sqrt 5⟩ : Point)
          ⟨200 - 100 * t - 2000 / Real.sqrt 5, 100 - 50 * t + 4000 / Real.sqrt 5⟩).p1)
      (((LineSegment.mk (⟨200, 100⟩ : Point) ⟨0, 0⟩).scale 2).p2.subtract
        ((LineSegment.mk (⟨200, 100⟩ : Point) ⟨0, 0⟩).scale 2).p1) =
      -6000000 / Real.sqrt 5 := by
    unfold crossProduct LineSegment.scale Point.subtract Point.add Point.scale
    dsimp only
    ring
  have htN : crossProduct
      ((((LineSegment.mk (⟨200, 100⟩ : Point) ⟨0, 0⟩).scale 2).p1).subtract
        (LineSegment.mk
          (⟨200 - 100 * t + 2000 / Real.sqrt 5, 100 - 50 * t - 4000 / Real.sqrt 5⟩ : Point)
          ⟨200 - 100 * t - 2000 / Real.sqrt 5, 100 - 50 * t + 4000 / Real.sqrt 5⟩).p1)
      (((LineSegment.mk (⟨200, 100⟩ : Point) ⟨0, 0⟩).scale 2).p2.subtract
        ((LineSegment.mk (⟨200, 100⟩ : Point) ⟨0, 0⟩).scale 2).p1) =
      -3000000 / Real.sqrt 5 := by
    unfold crossProduct LineSegment.scale Point.subtract Point.add Point.scale
    dsimp only
    ring
  have huN : crossProduct
      ((((LineSegment.mk (⟨200, 100⟩ : Point) ⟨0, 0⟩).scale 2).p1).subtract
        (LineSegment.mk
          (⟨200 - 100 * t + 2000 / Real.sqrt 5, 100 - 50 * t - 4000 / Real.sqrt 5⟩ : Point)
          ⟨200 - 100 * t - 2000 / Real.sqrt 5, 100 - 50 * t + 4000 / Real.sqrt 5⟩).p1)
      ((LineSegment.mk
          (⟨200 - 100 * t + 2000 / Real.sqrt 5, 100 - 50 * t - 4000 / Real.sqrt 5⟩ : Point)
          ⟨200 - 100 * t - 2000 / Real.sqrt 5, 100 - 50 * t + 4000 / Real.sqrt 5⟩).p2.subtract
        (LineSegment.mk
          (⟨200 - 100 * t + 2000 / Real.sqrt 5, 100 - 50 * t - 4000 / Real.sqrt 5⟩ : Point)
          ⟨200 - 100 * t - 2000 / Real.sqrt 5, 100 - 50 * t + 4000 / Real.sqrt 5⟩).p1) =
      (-4000000 + 1000000 * t) / Real.sqrt 5 := by
    unfold crossProduct LineSegment.scale Point.subtract Point.add Point.scale
    dsimp only
    ring
  have hDne : (-6000000 / Real.sqrt 5 : ℝ) ≠ 0 :=
    div_ne_zero (by norm_num) h5ne
  have htD : (-3000000 / Real.sqrt 5 : ℝ) / (-6000000 / Real.sqrt 5) = 1 / 2 := by
    field_simp
    ring
  have huD : ((-4000000 + 1000000 * t) / Real.sqrt 5 : ℝ) / (-6000000 / Real.sqrt 5) =
      (4 - t) / 6 := by
    rw [div_div_div_eq]
    field_simp
    ring
  rw [getIntersectPoint_eval _ _ _ _ _ hD htN huN hDne
      (by rw [htD]; norm_num) (by rw [htD]; norm_num)
      (by rw [huD]; linarith) (by rw [huD]; linarith)]
  rw [htD]
  congr 1
  simp only [Point.add, Point.subtract, Point.scale, Point.mk.injEq]
  constructor <;> ring

/-- On the anchor-to-opposite diagonal of the default 200×100 bottom-right
instance, the peel-line distance equals `t / 2` at diagonal parameter `t`. -/
lemma peelDist_on_diag (t : ℝ) (h0 : 0 ≤ t) (h1 : t ≤ 1) :
    diagPeelDistance t = t / 2 := by
  have h5 := sqrt5_pos
  have h5ne := sqrt5_ne_zero
  have h5sq := sqrt5_mul_self
  have hbounds := diag_rotation_bounds
  have hrot := diag_rotation_eval t h0 h1
  have hseg : (setPeelPosition (initialState 200 100 3)
      ⟨(1 - t) * 200, (1 - t) * 100⟩).peelLineSegment =
      ⟨⟨200 - 100 * t + 2000 / Real.sqrt 5, 100 - 50 * t - 4000 / Real.sqrt 5⟩,
       ⟨200 - 100 * t - 2000 / Real.sqrt 5, 100 - 50 * t + 4000 / Real.sqrt 5⟩⟩ := by
    rw [setPeelPosition_no_constraints rfl]
    exact diag_fold_eval t h0 h1
  have hcorners : peelLineDistanceCorners (setPeelPosition (initialState 200 100 3)
      ⟨(1 - t) * 200, (1 - t) * 100⟩) = (⟨200, 100⟩, ⟨0, 0⟩) := by
    unfold peelLineDistanceCorners
    rw [hrot]
    rw [if_neg (not_lt.mpr hbounds.1), if_pos hbounds.2]
    unfold getCornerPoint getCornerPointWH
    rw [show (setPeelPosition (initialState 200 100 3)
        ⟨(1 - t) * 200, (1 - t) * 100⟩).width = 200 from rfl,
      show (setPeelPosition (initialState 200 100 3)
        ⟨(1 - t) * 200, (1 - t) * 100⟩).height = 100 from rfl]
    rw [if_pos (by decide), if_pos (by decide), if_neg (by decide), if_neg (by decide)]
  unfold diagPeelDistance getPeelLineDistance
  dsimp only
  rw [hcorners]
  dsimp only
  rw [hseg, diag_intersect_eval t h0 h1]
  dsimp only
  have hnum : (Point.subtract ⟨200, 100⟩ ⟨200 - 100 * t, 100 - 50 * t⟩).getLength =
      50 * Real.sqrt 5 * t := by
    unfold Point.subtract Point.getLength
    dsimp only
    rw [show (200 - (200 - 100 * t)) ^ 2 + (100 - (100 - 50 * t)) ^ 2 =
        (50 * Real.sqrt 5 * t) ^ 2 by linear_combination (-2500 : ℝ) * t ^ 2 * h5sq]
    exact Real.sqrt_sq (by positivity)
  have hden : (Point.subtract ⟨200, 100⟩ ⟨0, 0⟩).getLength = 100 * Real.sqrt 5 := by
    unfold Point.subtract Point.getLength
    dsimp only
    rw [show ((200 : ℝ) - 0) ^ 2 + ((100 : ℝ) - 0) ^ 2 = (100 * Real.sqrt 5) ^ 2 by
      linear_combination (-10000 : ℝ) * h5sq]
    exact Real.sqrt_sq (by positivity)
  rw [hnum, hden]
  field_simp
  ring

/-- Claim C3 (amended): along the straight diagonal from the anchor corner
to its opposite corner of the default 200×100 bottom-right instance, the
peel-line distance is `t / 2` at diagonal parameter `t` — hence 0 at the
anchor corner, `1/2` (not 1) at the opposite corner — and it is strictly
monotone along the diagonal; whenever the fold line has no intersection
with the doubled corner-to-corner diagonal, `getPeelLineDistance` returns
the constant 2. -/
theorem claim_C3_peel_line_distance :
    (∀ t : ℝ, 0 ≤ t → t ≤ 1 → diagPeelDistance t = t / 2) ∧
    diagPeelDistance 0 = 0 ∧
    diagPeelDistance 1 = 1 / 2 ∧
    (∀ t1 t2 : ℝ, 0 ≤ t1 → t1 < t2 → t2 ≤ 1 →
      diagPeelDistance t1 < diagPeelDistance t2) ∧
    (∀ s : PeelState,
      s.peelLineSegment.getIntersectPoint
        ((LineSegment.mk (peelLineDistanceCorners s).1
          (peelLineDistanceCorners s).2).scale 2) = none →
      getPeelLineDistance s = 2) := by
  refine ⟨peelDist_on_diag, ?_, ?_, ?_, ?_⟩
  · rw [peelDist_on_diag 0 le_rfl zero_le_one]
    norm_num
  · exact peelDist_on_diag 1 zero_le_one le_rfl
  · intro t1 t2 ha hb hc
    rw [peelDist_on_diag t1 ha (le_trans (le_of_lt hb) hc),
        peelDist_on_diag t2 (le_trans ha (le_of_lt hb)) hc]
    linarith
  · intro s hnone
    unfold getPeelLineDistance
    dsimp only
    rw [hnone]

/-- Claim C3, counterexample to the claim as stated: at the opposite
corner (diagonal parameter 1) `getPeelLineDistance` evaluates to `1/2`,
not to the claimed 1. -/
theorem claim_C3_counterexample :
    diagPeelDistance 1 = 1 / 2 ∧ (1 / 2 : ℝ) ≠ 1 :=
  ⟨peelDist_on_diag 1 zero_le_one le_rfl, by norm_num⟩

/-- Claim C3, witness: the amended formula applied at the diagonal
midpoint `t = 1/2`. -/
theorem claim_C3_witness :
    (0 : ℝ) ≤ 1 / 2 ∧ (1 / 2 : ℝ) ≤ 1 ∧ diagPeelDistance (1 / 2) = 1 / 2 / 2 :=
  ⟨by norm_num, by norm_num,
    claim_C3_peel_line_distance.1 (1 / 2) (by norm_num) (by norm_num)⟩

end Peel
